import Mathlib

/-!
# Subscription CRUD service: embedding and verification

The development follows the layers of the repository:

* `internal/domain`     : `Subscription`, `UpdateSubscriptionInput`, the error sentinels;
* `internal/repository` : `SubscriptionRepository.*`, one SQL statement per operation;
* `internal/service`    : `SubscriptionServiceImplementation.*`, the orchestration layer.
* `internal/handlers`   : the HTTP handlers, `parseDate` and the status codes they answer.

The relational engine behind `pgxpool.Pool` is not part of the repository.  It is modelled
by `Postgres`: the `subscriptions` table as a list of rows, a schedule of gateway failures
and a log of the statements that reached the engine.  All Go functions are translated as
state-passing functions over `Postgres`, returning Go's `(value, error)` pairs.
-/

set_option autoImplicit false

namespace Crudl

/-! ## Domain types (`internal/domain/subscription.go`) -/

/-- Value of `time.Time`, kept at day precision in UTC: the API only produces first-of-month
midnights (`parseDate`) and the persisted columns are SQL dates. -/
structure Time where
  year : Int
  month : Nat
  day : Nat
deriving DecidableEq, Repr

/-- Zero value `time.Time{}`: January 1, year 1. -/
def Time.zero : Time := ⟨1, 1, 1⟩

/-- Go `t.Before(u)`: the instant `t` is strictly earlier than `u`. -/
def Time.Before (t u : Time) : Bool :=
  decide (t.year < u.year) ||
    (decide (t.year = u.year) &&
      (decide (t.month < u.month) || (decide (t.month = u.month) && decide (t.day < u.day))))

/-- Go `t.After(u)`. -/
def Time.After (t u : Time) : Bool := u.Before t

/-- Chronological order on dates: strictly earlier, or the same date. -/
instance : LE Time := ⟨fun a b => a.Before b = true ∨ a = b⟩

instance (a b : Time) : Decidable (a ≤ b) :=
  inferInstanceAs (Decidable (a.Before b = true ∨ a = b))

/-- Go errors that occur in this program: the three sentinels of the domain package, the
`pgx.ErrNoRows` sentinel, any other error raised by the storage engine, and the wrapper
built by `fmt.Errorf("...: %w", err)`. -/
inductive Error where
  | ErrSubscriptionNotFound
  | ErrInvalidPeriod
  | ErrInternal
  | pgxErrNoRows
  | pgError (detail : String)
  | wrap (msg : String) (inner : Error)
deriving DecidableEq, Repr

/-- Go `errors.Is(err, target)`: some error of the `%w` chain of `err` equals `target`. -/
def Error.Is : Error → Error → Bool
  | .wrap msg inner, target => decide (Error.wrap msg inner = target) || inner.Is target
  | err, target => decide (err = target)

/-- Go `domain.Subscription`. -/
structure Subscription where
  ServiceName : String
  Price : Int
  UserID : String
  StartDate : Time
  EndDate : Option Time
deriving DecidableEq, Repr

/-- Zero value `domain.Subscription{}`. -/
def Subscription.zero : Subscription := ⟨"", 0, "", Time.zero, none⟩

/-- Go `domain.UpdateSubscriptionInput`: a nil pointer is `none`. -/
structure UpdateSubscriptionInput where
  Price : Option Int
  EndDate : Option Time
deriving DecidableEq, Repr

/-! ## Storage gateway (`pgxpool.Pool` over the `subscriptions` table) -/

/-- A value bound to a placeholder `$k` of a statement. -/
inductive Arg where
  | text (s : String)
  | int (n : Int)
  | date (t : Time)
  | null
deriving DecidableEq, Repr

/-- A statement as handed to the pool: SQL text and positional arguments. -/
structure Statement where
  query : String
  args : List Arg
deriving DecidableEq, Repr

/-- One row of table `subscriptions`. -/
structure Row where
  id : String
  service_name : String
  price : Int
  user_id : String
  start_date : Time
  end_date : Option Time
deriving DecidableEq, Repr

/-- A failure of the gateway (connection lost, timeout, cancelled context, ...).  With
`duringRows` the failure surfaces while a result set is iterated, not when the query is sent. -/
structure Fault where
  detail : String
  duringRows : Bool
deriving DecidableEq, Repr

/-- Modelled from the spec: the storage engine, which is outside the repository (and so is
the migration that declares the table).  `rows` is the table, `nextId` the generator of the
primary identifier ("generated by the store on creation"), `faults` the outcome scheduled
for each of the next statements (`none`: the statement is executed), `log` the statements
that were sent so far. -/
structure Postgres where
  rows : List Row
  nextId : Nat
  faults : List (Option Fault)
  log : List Statement
deriving DecidableEq, Repr

/-- No failure of the gateway is scheduled. -/
def Postgres.Healthy (pg : Postgres) : Prop := ∀ f ∈ pg.faults, f = none

instance (pg : Postgres) : Decidable pg.Healthy :=
  inferInstanceAs (Decidable (∀ f ∈ pg.faults, f = none))

/-- Ids of the table are pairwise distinct (`id` is the primary identifier). -/
def Postgres.PrimaryKey (pg : Postgres) : Prop := (pg.rows.map (fun r => r.id)).Nodup

instance (pg : Postgres) : Decidable pg.PrimaryKey :=
  inferInstanceAs (Decidable (pg.rows.map (fun (r : Row) => r.id)).Nodup)

/-- The gateway after a statement was sent: the statement is logged and has consumed the
next scheduled outcome. -/
def Postgres.record (pg : Postgres) (st : Statement) : Postgres :=
  { pg with faults := pg.faults.tail, log := pg.log ++ [st] }

/-- The gateway with its table replaced by `rows`. -/
def Postgres.withRows (pg : Postgres) (rows : List Row) : Postgres :=
  { pg with rows := rows }

/-- Sending a statement: the outcome scheduled for it, and the gateway afterwards. -/
def Postgres.send (pg : Postgres) (st : Statement) : Option Fault × Postgres :=
  (pg.faults.head?.join, pg.record st)

/-- SQL `a <= b` on dates. -/
def sqlLe (a b : Time) : Bool := a.Before b || decide (a = b)

/-- SQL `a >= b` on dates. -/
def sqlGe (a b : Time) : Bool := sqlLe b a

/-- SQL aggregate `SUM`: `NULL` over an empty set of rows. -/
def sqlSum : List Int → Option Int
  | [] => none
  | x :: xs => some (x + xs.sum)

/-- SQL `COALESCE(x, d)`. -/
def COALESCE (x : Option Int) (d : Int) : Int :=
  match x with
  | some v => v
  | none => d

/-- Text of the `INSERT` of `SubscriptionRepository.Create` (whitespace normalised). -/
def insertQuery : String :=
  "INSERT INTO subscriptions (service_name, price, user_id, start_date, end_date) VALUES ($1, $2, $3, $4, $5) RETURNING id"

/-- Text of the `SELECT` of `SubscriptionRepository.Get` (whitespace normalised). -/
def getQuery : String :=
  "SELECT service_name, price, user_id, start_date, end_date FROM subscriptions WHERE id = $1"

/-- Text of the `DELETE` of `SubscriptionRepository.Delete` (whitespace normalised). -/
def deleteQuery : String := "DELETE FROM subscriptions WHERE id = $1"

/-- Text of the `SELECT` of `SubscriptionRepository.List` (whitespace normalised). -/
def listQuery : String :=
  "SELECT service_name, price, user_id, start_date, end_date FROM subscriptions WHERE user_id = $1"

/-- Text of the aggregate of `SubscriptionRepository.GetTotalCost` (whitespace normalised). -/
def totalCostQuery : String :=
  "SELECT COALESCE(SUM(price), 0) FROM subscriptions WHERE user_id = $1 AND ($2 = '' OR service_name = $2) AND start_date <= $4 AND (end_date IS NULL OR end_date >= $3)"

/-- A nullable date as a statement argument. -/
def Arg.ofDate? : Option Time → Arg
  | some t => .date t
  | none => .null

/-- `INSERT ... RETURNING id`: the engine generates the id; a clash with an existing
primary identifier is a constraint violation. -/
def Postgres.insertReturningId (pg : Postgres) (service_name : String) (price : Int)
    (user_id : String) (start_date : Time) (end_date : Option Time) :
    Except Error String × Postgres :=
  let sent := pg.send ⟨insertQuery,
    [.text service_name, .int price, .text user_id, .date start_date, Arg.ofDate? end_date]⟩
  match sent.1 with
  | some f => (.error (.pgError f.detail), sent.2)
  | none =>
    let id := toString sent.2.nextId
    if sent.2.rows.any (fun r => r.id == id) then
      (.error (.pgError "duplicate key value violates unique constraint"),
        { sent.2 with nextId := sent.2.nextId + 1 })
    else
      (.ok id,
        { sent.2 with
          rows := sent.2.rows ++ [⟨id, service_name, price, user_id, start_date, end_date⟩]
          nextId := sent.2.nextId + 1 })

/-- `SELECT ... WHERE id = $1` through `QueryRow(...).Scan`: the first matching row, or
`pgx.ErrNoRows`. -/
def Postgres.selectById (pg : Postgres) (id : String) : Except Error Row × Postgres :=
  let sent := pg.send ⟨getQuery, [.text id]⟩
  match sent.1 with
  | some f => (.error (.pgError f.detail), sent.2)
  | none =>
    match sent.2.rows.find? (fun r => r.id == id) with
    | some r => (.ok r, sent.2)
    | none => (.error .pgxErrNoRows, sent.2)

/-- `SELECT ... WHERE user_id = $1` through `Query`: an immediate error, or the matching
rows in table order together with the error reported by `rows.Err()` once iteration stops
(a failure during iteration delivers no further row). -/
def Postgres.selectByUser (pg : Postgres) (userID : String) :
    Except Error (List Row × Option Error) × Postgres :=
  let sent := pg.send ⟨listQuery, [.text userID]⟩
  match sent.1 with
  | some f =>
    if f.duringRows then (.ok ([], some (.pgError f.detail)), sent.2)
    else (.error (.pgError f.detail), sent.2)
  | none => (.ok (sent.2.rows.filter (fun r => r.user_id == userID), none), sent.2)

/-- The `WHERE` clause of the aggregate query, conjunct by conjunct. -/
def totalCostWhere (userID serviceName : String) (startDate endDate : Time) (r : Row) : Bool :=
  (r.user_id == userID) &&
  (serviceName == "" || r.service_name == serviceName) &&
  sqlLe r.start_date endDate &&
  (match r.end_date with
    | none => true
    | some e => sqlGe e startDate)

/-- `SELECT COALESCE(SUM(price), 0) ...` through `QueryRow(...).Scan`. -/
def Postgres.selectTotalCost (pg : Postgres) (userID serviceName : String)
    (startDate endDate : Time) : Except Error Int × Postgres :=
  let sent := pg.send ⟨totalCostQuery, [.text userID, .text serviceName, .date startDate, .date endDate]⟩
  match sent.1 with
  | some f => (.error (.pgError f.detail), sent.2)
  | none =>
    (.ok (COALESCE (sqlSum ((sent.2.rows.filter
        (totalCostWhere userID serviceName startDate endDate)).map (fun r => r.price))) 0),
      sent.2)

/-- The data-modifying statements this program sends through `Pool.Exec`. -/
inductive Command where
  | update (price : Option Int) (endDate : Option Time) (id : String)
  | delete (id : String)
deriving DecidableEq, Repr

/-- Reading of the SQL text and arguments received by `Exec`.  Any other text (for instance
an assignment list that ends in a comma) is rejected by the engine. -/
def parseExec (query : String) (args : List Arg) : Option Command :=
  if query = "UPDATE subscriptions SET price = $1 WHERE id = $2" then
    match args with
    | [.int p, .text id] => some (.update (some p) none id)
    | _ => none
  else if query = "UPDATE subscriptions SET end_date = $1 WHERE id = $2" then
    match args with
    | [.date e, .text id] => some (.update none (some e) id)
    | _ => none
  else if query = "UPDATE subscriptions SET price = $1, end_date = $2 WHERE id = $3" then
    match args with
    | [.int p, .date e, .text id] => some (.update (some p) (some e) id)
    | _ => none
  else if query = deleteQuery then
    match args with
    | [.text id] => some (.delete id)
    | _ => none
  else none

/-- The id named by the `WHERE id = ...` clause of a command. -/
def Command.target : Command → String
  | .update _ _ id => id
  | .delete id => id

/-- Effect of a command on one row that satisfies its `WHERE` clause. -/
def Command.onRow : Command → Row → Option Row
  | .update price endDate _, r =>
    some { r with
      price := (match price with | some p => p | none => r.price)
      end_date := (match endDate with | some e => some e | none => r.end_date) }
  | .delete _, _ => none

/-- Effect of a command on the table. -/
def Command.apply (c : Command) (rows : List Row) : List Row :=
  rows.filterMap (fun r => if r.id = c.target then c.onRow r else some r)

/-- `Pool.Exec`: runs a data-modifying statement and reports the number of affected rows. -/
def Postgres.Exec (pg : Postgres) (query : String) (args : List Arg) :
    Except Error Nat × Postgres :=
  let sent := pg.send ⟨query, args⟩
  match sent.1 with
  | some f => (.error (.pgError f.detail), sent.2)
  | none =>
    match parseExec query args with
    | none => (.error (.pgError "syntax error"), sent.2)
    | some c =>
      (.ok (sent.2.rows.countP (fun r => decide (r.id = c.target))),
        sent.2.withRows (c.apply sent.2.rows))

/-! ## Repository (`internal/repository/subscription.go`) -/

namespace SubscriptionRepository

/-- Go `SubscriptionRepository.Create`. -/
def Create (pg : Postgres) (sub : Subscription) : (String × Option Error) × Postgres :=
  let res := pg.insertReturningId sub.ServiceName sub.Price sub.UserID sub.StartDate sub.EndDate
  match res.1 with
  | .error err => (("", some (.wrap "Ошибка при создании подписки" err)), res.2)
  | .ok id => ((id, none), res.2)

/-- Go `Scan(&sub.ServiceName, &sub.Price, &sub.UserID, &sub.StartDate, &sub.EndDate)`. -/
def scan (r : Row) : Subscription :=
  ⟨r.service_name, r.price, r.user_id, r.start_date, r.end_date⟩

/-- Go `SubscriptionRepository.Get`. -/
def Get (pg : Postgres) (id : String) : (Subscription × Option Error) × Postgres :=
  let res := pg.selectById id
  match res.1 with
  | .error err =>
    if err.Is .pgxErrNoRows then
      ((Subscription.zero, some .ErrSubscriptionNotFound), res.2)
    else
      ((Subscription.zero, some (.wrap "Ошибка при получении подписки" err)), res.2)
  | .ok r => ((scan r, none), res.2)

/-- Query text and arguments assembled by `SubscriptionRepository.Update`; `none` when the
function returns before building a statement (`len(args) == 0`). -/
def buildUpdate (id : String) (input : UpdateSubscriptionInput) : Option Statement :=
  let query := "UPDATE subscriptions SET "
  let args : List Arg := []
  let argId : Nat := 1
  let s1 : String × List Arg × Nat :=
    match input.Price with
    | some p => (query ++ ("price = $" ++ toString argId ++ ", "), args ++ [.int p], argId + 1)
    | none => (query, args, argId)
  let s2 : String × List Arg × Nat :=
    match input.EndDate with
    | some e =>
      (s1.1 ++ ("end_date = $" ++ toString s1.2.2 ++ ", "), s1.2.1 ++ [.date e], s1.2.2 + 1)
    | none => s1
  if s2.2.1.length = 0 then none
  else
    let query := s2.1.dropRight 2
    let query := query ++ (" WHERE id = $" ++ toString s2.2.2)
    some ⟨query, s2.2.1 ++ [.text id]⟩

/-- Go `SubscriptionRepository.Update`. -/
def Update (pg : Postgres) (id : String) (input : UpdateSubscriptionInput) :
    Option Error × Postgres :=
  match buildUpdate id input with
  | none => (none, pg)
  | some st =>
    let res := pg.Exec st.query st.args
    match res.1 with
    | .error err => (some (.wrap "Ошибка при обновлении подписки" err), res.2)
    | .ok affected =>
      if affected = 0 then (some .ErrSubscriptionNotFound, res.2) else (none, res.2)

/-- Go `SubscriptionRepository.Delete`. -/
def Delete (pg : Postgres) (id : String) : Option Error × Postgres :=
  let res := pg.Exec deleteQuery [.text id]
  match res.1 with
  | .error err => (some (.wrap "Ошибка при удалении подписки" err), res.2)
  | .ok affected =>
    if affected = 0 then (some .ErrSubscriptionNotFound, res.2) else (none, res.2)

/-- Go `SubscriptionRepository.List`.  A Go slice is `none` when nil; the loop over
`rows.Next()` appends one scanned subscription per row to `make([]domain.Subscription, 0)`. -/
def List (pg : Postgres) (userID : String) :
    (Option (List Subscription) × Option Error) × Postgres :=
  let res := pg.selectByUser userID
  match res.1 with
  | .error err => ((none, some (.wrap "Ошибка при получении списка подписок" err)), res.2)
  | .ok (rows, rowsErr) =>
    let subs := rows.foldl (fun subs r => subs ++ [scan r]) []
    match rowsErr with
    | some err => ((none, some (.wrap "Ошибка при сканировании списка подписок" err)), res.2)
    | none => ((some subs, none), res.2)

/-- Go `SubscriptionRepository.GetTotalCost`. -/
def GetTotalCost (pg : Postgres) (userID serviceName : String) (startDate endDate : Time) :
    (Int × Option Error) × Postgres :=
  let res := pg.selectTotalCost userID serviceName startDate endDate
  match res.1 with
  | .error err => ((0, some (.wrap "Ошибка при подсчете суммы подписок" err)), res.2)
  | .ok total => ((total, none), res.2)

end SubscriptionRepository

/-! ## Service (`internal/service/subscription.go`) -/

namespace SubscriptionServiceImplementation

/-- Go `SubscriptionServiceImplementation.Create`. -/
def Create (pg : Postgres) (sub : Subscription) : (String × Option Error) × Postgres :=
  let res := SubscriptionRepository.Create pg sub
  match res.1.2 with
  | some err => (("", some err), res.2)
  | none => ((res.1.1, none), res.2)

/-- Go `SubscriptionServiceImplementation.Get`. -/
def Get (pg : Postgres) (id : String) : (Subscription × Option Error) × Postgres :=
  let res := SubscriptionRepository.Get pg id
  match res.1.2 with
  | some err => ((Subscription.zero, some err), res.2)
  | none => ((res.1.1, none), res.2)

/-- Go `SubscriptionServiceImplementation.Update`. -/
def Update (pg : Postgres) (id : String) (input : UpdateSubscriptionInput) :
    Option Error × Postgres :=
  match input.EndDate with
  | some endDate =>
    let cur := SubscriptionRepository.Get pg id
    match cur.1.2 with
    | some err => (some err, cur.2)
    | none =>
      if endDate.Before cur.1.1.StartDate then (some .ErrInvalidPeriod, cur.2)
      else SubscriptionRepository.Update cur.2 id input
  | none => SubscriptionRepository.Update pg id input

/-- Go `SubscriptionServiceImplementation.Delete`. -/
def Delete (pg : Postgres) (id : String) : Option Error × Postgres :=
  let res := SubscriptionRepository.Delete pg id
  match res.1 with
  | some err => (some err, res.2)
  | none => (none, res.2)

/-- Go `SubscriptionServiceImplementation.List`. -/
def List (pg : Postgres) (userID : String) :
    (Option (List Subscription) × Option Error) × Postgres :=
  let res := SubscriptionRepository.List pg userID
  match res.1.2 with
  | some err => ((none, some err), res.2)
  | none => ((res.1.1, none), res.2)

/-- Go `SubscriptionServiceImplementation.GetTotalCost`. -/
def GetTotalCost (pg : Postgres) (userID serviceName : String) (startDate endDate : Time) :
    (Int × Option Error) × Postgres :=
  let res := SubscriptionRepository.GetTotalCost pg userID serviceName startDate endDate
  match res.1.2 with
  | some err => ((0, some err), res.2)
  | none => ((res.1.1, none), res.2)

end SubscriptionServiceImplementation

/-! ## HTTP handlers (`internal/handlers`) -/

/-- Go interface `handlers.SubscriptionService`: the operations a handler may call, as
functions over the state of the world behind them. -/
structure SubscriptionService where
  Create : Postgres → Subscription → (String × Option Error) × Postgres
  Get : Postgres → String → (Subscription × Option Error) × Postgres
  Update : Postgres → String → UpdateSubscriptionInput → Option Error × Postgres
  Delete : Postgres → String → Option Error × Postgres
  GetTotalCost : Postgres → String → String → Time → Time → (Int × Option Error) × Postgres
  List : Postgres → String → (Option (List Subscription) × Option Error) × Postgres

/-- Go `NewSubscriptionService(repo)` over the repository, seen through the interface. -/
def NewSubscriptionService : SubscriptionService where
  Create := SubscriptionServiceImplementation.Create
  Get := SubscriptionServiceImplementation.Get
  Update := SubscriptionServiceImplementation.Update
  Delete := SubscriptionServiceImplementation.Delete
  GetTotalCost := SubscriptionServiceImplementation.GetTotalCost
  List := SubscriptionServiceImplementation.List

/-- Go `createSubInput` as decoded from the JSON body (an absent key leaves the zero value). -/
structure createSubInput where
  ServiceName : String
  Price : Int
  UserID : String
  StartDate : String
deriving DecidableEq, Repr

/-- Go `updateSubInput` as decoded from the JSON body (an absent key leaves a nil pointer). -/
structure updateSubInput where
  Price : Option Int
  EndDate : Option String
deriving DecidableEq, Repr

/-- Body of a response. -/
inductive Body where
  | errorResponse (error : String)
  | created (id : String)
  | subscription (sub : Subscription)
  | updated (status message : String)
  | subscriptions (subs : List Subscription)
  | totalCost (total : Int)
  | empty
deriving DecidableEq, Repr

/-- What a handler writes to the `gin.Context`: status code and body. -/
structure Response where
  status : Nat
  body : Body
deriving DecidableEq, Repr

/-- Go `http.StatusOK`. -/
def StatusOK : Nat := 200

/-- Go `http.StatusCreated`. -/
def StatusCreated : Nat := 201

/-- Go `http.StatusNoContent`. -/
def StatusNoContent : Nat := 204

/-- Go `http.StatusBadRequest`. -/
def StatusBadRequest : Nat := 400

/-- Go `http.StatusNotFound`. -/
def StatusNotFound : Nat := 404

/-- Go `http.StatusInternalServerError`. -/
def StatusInternalServerError : Nat := 500

/-- Go `newErrorResponse(c, statusCode, message)`. -/
def newErrorResponse (statusCode : Nat) (message : String) : Response :=
  ⟨statusCode, .errorResponse message⟩

/-- Value of a decimal digit. -/
def digitValue (c : Char) : Nat := c.toNat - 48

/-- Go `parseDate`, that is `time.Parse("01-2006", dateStr)`: two digits of a month between
1 and 12, a dash, four digits of a year and nothing else; the day is the first of the month.
The result is `none` when Go returns an error. -/
def parseDate (dateStr : String) : Option Time :=
  match dateStr.data with
  | [m1, m2, dash, y1, y2, y3, y4] =>
    if m1.isDigit && m2.isDigit && dash == '-' &&
        y1.isDigit && y2.isDigit && y3.isDigit && y4.isDigit then
      let month := digitValue m1 * 10 + digitValue m2
      let year := digitValue y1 * 1000 + digitValue y2 * 100 + digitValue y3 * 10 + digitValue y4
      if month = 0 ∨ 12 < month then none else some ⟨(year : Nat), month, 1⟩
    else none
  | _ => none

/-- Outcome of `c.ShouldBindJSON(&input)` for `createSubInput`: `body` is the decoded JSON
(`none` when the body is not JSON of that shape); the tag `binding:"required"` then rejects
every field left at its zero value. -/
def bindCreate (body : Option createSubInput) : Option createSubInput :=
  match body with
  | none => none
  | some input =>
    if input.ServiceName = "" ∨ input.Price = 0 ∨ input.UserID = "" ∨ input.StartDate = "" then
      none
    else some input

/-- Go `Handler.createSubscription` (logging left out). -/
def createSubscription (services : SubscriptionService) (pg : Postgres)
    (body : Option createSubInput) : Response × Postgres :=
  match bindCreate body with
  | none => (newErrorResponse StatusBadRequest "Неверное тело запроса", pg)
  | some input =>
    match parseDate input.StartDate with
    | none =>
      (newErrorResponse StatusBadRequest "Неверный формат даты начала. Ожидается MM-YYYY", pg)
    | some startDate =>
      let sub : Subscription :=
        { ServiceName := input.ServiceName
          Price := input.Price
          UserID := input.UserID
          StartDate := startDate
          EndDate := none }
      let res := services.Create pg sub
      match res.1.2 with
      | some _ =>
        (newErrorResponse StatusInternalServerError "Внутренняя ошибка сервера", res.2)
      | none => (⟨StatusCreated, .created res.1.1⟩, res.2)

/-- Go `Handler.getSubscription` (logging left out); `id` is `c.Param("id")`. -/
def getSubscription (services : SubscriptionService) (pg : Postgres) (id : String) :
    Response × Postgres :=
  if id = "" then
    (newErrorResponse StatusBadRequest "ID подписки не может быть пустым", pg)
  else
    let res := services.Get pg id
    match res.1.2 with
    | some err =>
      if err.Is .ErrSubscriptionNotFound then
        (newErrorResponse StatusNotFound "Подписка не найдена", res.2)
      else (newErrorResponse StatusInternalServerError "Внутренняя ошибка сервера", res.2)
    | none => (⟨StatusOK, .subscription res.1.1⟩, res.2)

/-- Go `Handler.updateSubscription` (logging left out); `body` is the decoded JSON, `none`
when `ShouldBindJSON` fails. -/
def updateSubscription (services : SubscriptionService) (pg : Postgres) (id : String)
    (body : Option updateSubInput) : Response × Postgres :=
  if id = "" then
    (newErrorResponse StatusBadRequest "ID подписки не может быть пустым", pg)
  else
    match body with
    | none => (newErrorResponse StatusBadRequest "Неверное тело запроса", pg)
    | some input =>
      let parsed : Option (Option Time) :=
        match input.EndDate with
        | some dateStr =>
          match parseDate dateStr with
          | none => none
          | some t => some (some t)
        | none => some none
      match parsed with
      | none =>
        (newErrorResponse StatusBadRequest
          "Неверный формат даты окончания. Ожидается MM-YYYY", pg)
      | some endDate =>
        let updateData : UpdateSubscriptionInput := { Price := input.Price, EndDate := endDate }
        let res := services.Update pg id updateData
        match res.1 with
        | some err =>
          if err.Is .ErrSubscriptionNotFound then
            (newErrorResponse StatusNotFound "Подписка не найдена", res.2)
          else if err.Is .ErrInvalidPeriod then
            (newErrorResponse StatusBadRequest
              "Дата окончания не может быть раньше даты начала", res.2)
          else (newErrorResponse StatusInternalServerError "Внутренняя ошибка сервера", res.2)
        | none => (⟨StatusOK, .updated "ok" "Подписка обновлена"⟩, res.2)

/-- Go `Handler.deleteSubscription` (logging left out). -/
def deleteSubscription (services : SubscriptionService) (pg : Postgres) (id : String) :
    Response × Postgres :=
  if id = "" then
    (newErrorResponse StatusBadRequest "ID подписки не может быть пустым", pg)
  else
    let res := services.Delete pg id
    match res.1 with
    | some err =>
      if err.Is .ErrSubscriptionNotFound then
        (newErrorResponse StatusNotFound "Подписка не найдена", res.2)
      else (newErrorResponse StatusInternalServerError "Внутренняя ошибка сервера", res.2)
    | none => (⟨StatusNoContent, .empty⟩, res.2)

/-- Go `Handler.getList` (logging left out); `userID` is `c.Query("user_id")`. -/
def getList (services : SubscriptionService) (pg : Postgres) (userID : String) :
    Response × Postgres :=
  if userID = "" then
    (newErrorResponse StatusBadRequest "ID пользователя не может быть пустым", pg)
  else
    let res := services.List pg userID
    match res.1.2 with
    | some _ => (newErrorResponse StatusInternalServerError "Внутренняя ошибка сервера", res.2)
    | none =>
      let subs : List Subscription :=
        match res.1.1 with
        | none => []
        | some subs => subs
      (⟨StatusOK, .subscriptions subs⟩, res.2)

/-- Go `Handler.getTotalCost` (logging left out); the four strings are the query parameters
`user_id`, `service_name`, `start_date` and `end_date`. -/
def getTotalCost (services : SubscriptionService) (pg : Postgres)
    (userID serviceName startDateStr endDateStr : String) : Response × Postgres :=
  if userID = "" then (newErrorResponse StatusBadRequest "user_id обязателен", pg)
  else if startDateStr = "" ∨ endDateStr = "" then
    (newErrorResponse StatusBadRequest "start_date и end_date обязательны", pg)
  else
    match parseDate startDateStr with
    | none =>
      (newErrorResponse StatusBadRequest "Неверный формат start_date. Ожидается MM-YYYY", pg)
    | some startDate =>
      match parseDate endDateStr with
      | none =>
        (newErrorResponse StatusBadRequest "Неверный формат end_date. Ожидается MM-YYYY", pg)
      | some endDate =>
        if startDate.After endDate then
          (newErrorResponse StatusBadRequest "start_date не может быть после end_date", pg)
        else
          let res := services.GetTotalCost pg userID serviceName startDate endDate
          match res.1.2 with
          | some _ =>
            (newErrorResponse StatusInternalServerError "Внутренняя ошибка сервера", res.2)
          | none => (⟨StatusOK, .totalCost res.1.1⟩, res.2)

/-! ## Notions used by the statements -/

/-- The row stored under `id`, if any. -/
def Postgres.lookup (pg : Postgres) (id : String) : Option Row :=
  pg.rows.find? (fun r => r.id == id)

/-- Date-ordering invariant of one row: a present end date is not before the start date. -/
def Row.DatesOrdered (r : Row) : Prop :=
  match r.end_date with
  | none => True
  | some e => r.start_date ≤ e

instance (r : Row) : Decidable r.DatesOrdered := by
  unfold Row.DatesOrdered
  cases r.end_date
  · exact isTrue trivial
  · exact inferInstance

/-- Date-ordering invariant of the table. -/
def Postgres.DatesOrdered (pg : Postgres) : Prop := ∀ r ∈ pg.rows, r.DatesOrdered

instance (pg : Postgres) : Decidable pg.DatesOrdered :=
  inferInstanceAs (Decidable (∀ r ∈ pg.rows, r.DatesOrdered))

/-- Inclusion rule of the cost aggregate as the specification words it: same user, start
not after the window end, end absent or not before the window start, and the service filter
empty or equal to the service name. -/
def Included (userId serviceName : String) (startDate endDate : Time) (s : Row) : Prop :=
  s.user_id = userId ∧ s.start_date ≤ endDate ∧
    (s.end_date = none ∨ ∃ e, s.end_date = some e ∧ startDate ≤ e) ∧
    (serviceName = "" ∨ s.service_name = serviceName)

instance (userId serviceName : String) (startDate endDate : Time) (s : Row) :
    Decidable (Included userId serviceName startDate endDate s) := by
  unfold Included
  cases h : s.end_date with
  | none => exact decidable_of_iff (s.user_id = userId ∧ s.start_date ≤ endDate ∧
      (serviceName = "" ∨ s.service_name = serviceName)) (by simp)
  | some e => exact decidable_of_iff (s.user_id = userId ∧ s.start_date ≤ endDate ∧
      startDate ≤ e ∧ (serviceName = "" ∨ s.service_name = serviceName)) (by simp)

/-- Sum of the prices of the rows that the specification includes. -/
def includedTotal (rows : List Row) (userId serviceName : String) (startDate endDate : Time) :
    Int :=
  ((rows.filter (fun s => decide (Included userId serviceName startDate endDate s))).map
    (fun s => s.price)).sum

/-- The row written by `UPDATE` in place of a row that matches its `WHERE` clause. -/
def Row.updated (r : Row) (price : Option Int) (endDate : Option Time) : Row :=
  { r with
    price := (match price with | some p => p | none => r.price)
    end_date := (match endDate with | some e => some e | none => r.end_date) }

/-- A mutating request: a create through the HTTP handler, a create through the service, or
an update through the service. -/
inductive Request where
  | post (body : createSubInput)
  | create (sub : Subscription)
  | update (id : String) (input : UpdateSubscriptionInput)
deriving DecidableEq, Repr

/-- The price a request supplies, if any. -/
def Request.price : Request → Option Int
  | .post body => some body.Price
  | .create sub => some sub.Price
  | .update _ input => input.Price

/-- The store after a request was served (by the handler over the real service, or by the
service itself). -/
def Request.run (pg : Postgres) : Request → Postgres
  | .post body => (createSubscription NewSubscriptionService pg (some body)).2
  | .create sub => (SubscriptionServiceImplementation.Create pg sub).2
  | .update id input => (SubscriptionServiceImplementation.Update pg id input).2

/-- The store after a sequence of requests, served one after the other. -/
def runRequests (pg : Postgres) (reqs : List Request) : Postgres :=
  reqs.foldl Request.run pg

/-- Every stored price is non-negative. -/
def Postgres.PricesNonneg (pg : Postgres) : Prop := ∀ r ∈ pg.rows, 0 ≤ r.price

instance (pg : Postgres) : Decidable pg.PricesNonneg :=
  inferInstanceAs (Decidable (∀ r ∈ pg.rows, 0 ≤ r.price))

/-- The statement that the dynamic construction of `Update` is meant to produce, written
from its description: one assignment `column = $k` per present field (price before
end_date), numbered from 1 and separated by a comma and a blank, then the `WHERE` clause on
the next number; the arguments are the present values in that order, then the id. -/
def expectedUpdate (id : String) (input : UpdateSubscriptionInput) : Statement :=
  let fields : List (String × Arg) :=
    (match input.Price with
      | some p => [("price", Arg.int p)]
      | none => []) ++
    (match input.EndDate with
      | some e => [("end_date", Arg.date e)]
      | none => [])
  let assignments : List String :=
    fields.enum.map (fun kf => kf.2.1 ++ " = $" ++ toString (kf.1 + 1))
  ⟨"UPDATE subscriptions SET " ++ ", ".intercalate assignments ++
      " WHERE id = $" ++ toString (fields.length + 1),
    fields.map (fun f => f.2) ++ [.text id]⟩

/-! ## Sample data -/

/-- Subscription A of the overlap scenario: January to June 2024, price 100. -/
def rowA : Row := ⟨"1", "netflix", 100, "u1", ⟨2024, 1, 1⟩, some ⟨2024, 6, 1⟩⟩

/-- Subscription B of the overlap scenario: from May 2024, open-ended, price 50. -/
def rowB : Row := ⟨"2", "spotify", 50, "u1", ⟨2024, 5, 1⟩, none⟩

/-- Subscription of the exclusion scenario: starts in July 2024. -/
def rowC : Row := ⟨"3", "yandex", 70, "u1", ⟨2024, 7, 1⟩, none⟩

/-- A subscription as the API layer creates it: no end date. -/
def subOpen : Subscription := ⟨"netflix", 100, "u1", ⟨2024, 6, 1⟩, none⟩

/-- A store without rows. -/
def emptyStore : Postgres := ⟨[], 1, [], []⟩

/-- A store holding subscriptions A and B. -/
def storeAB : Postgres := ⟨[rowA, rowB], 3, [], []⟩

/-- A store holding subscriptions A, B and C. -/
def storeABC : Postgres := ⟨[rowA, rowB, rowC], 4, [], []⟩

/-- The store with A and B behind a gateway whose next statement fails. -/
def storeDown : Postgres := ⟨[rowA, rowB], 3, [some ⟨"connection refused", false⟩], []⟩

/-- A subscription that starts in the middle of January 2024. -/
def rowMid : Row := ⟨"4", "netflix", 100, "u1", ⟨2024, 1, 15⟩, none⟩

/-- A store holding the subscription that starts in mid-January. -/
def storeMid : Postgres := ⟨[rowMid], 5, [], []⟩

/-! ## Dates -/

theorem Time.Before_irrefl (t : Time) : t.Before t = false := by
  simp [Time.Before]

theorem Time.le_of_not_Before {a b : Time} (h : a.Before b = false) : b ≤ a := by
  show b.Before a = true ∨ b = a
  obtain ⟨ay, am, ad⟩ := a
  obtain ⟨y, m, d⟩ := b
  simp only [Time.Before, Bool.or_eq_false_iff, Bool.and_eq_false_iff, decide_eq_false_iff_not,
    Bool.or_eq_true, Bool.and_eq_true, decide_eq_true_eq, Time.mk.injEq] at h ⊢
  omega

theorem Time.not_Before_of_le {a b : Time} (h : b ≤ a) : a.Before b = false := by
  rcases h with h | h
  · obtain ⟨ay, am, ad⟩ := a
    obtain ⟨y, m, d⟩ := b
    simp only [Time.Before, Bool.or_eq_false_iff, Bool.and_eq_false_iff, decide_eq_false_iff_not,
      Bool.or_eq_true, Bool.and_eq_true, decide_eq_true_eq] at h ⊢
    omega
  · subst h
    exact Time.Before_irrefl b

theorem sqlLe_iff (a b : Time) : sqlLe a b = true ↔ a ≤ b := by
  show (a.Before b || decide (a = b)) = true ↔ (a.Before b = true ∨ a = b)
  simp

theorem sqlGe_iff (a b : Time) : sqlGe a b = true ↔ b ≤ a := sqlLe_iff b a

/-! ## The gateway -/

@[simp] theorem Postgres.record_rows (pg : Postgres) (st : Statement) :
    (pg.record st).rows = pg.rows := rfl

@[simp] theorem Postgres.record_nextId (pg : Postgres) (st : Statement) :
    (pg.record st).nextId = pg.nextId := rfl

@[simp] theorem Postgres.record_log (pg : Postgres) (st : Statement) :
    (pg.record st).log = pg.log ++ [st] := rfl

@[simp] theorem Postgres.withRows_rows (pg : Postgres) (rows : List Row) :
    (pg.withRows rows).rows = rows := rfl

@[simp] theorem Postgres.withRows_log (pg : Postgres) (rows : List Row) :
    (pg.withRows rows).log = pg.log := rfl

@[simp] theorem Postgres.send_snd (pg : Postgres) (st : Statement) :
    (pg.send st).2 = pg.record st := rfl

theorem Postgres.Healthy.record {pg : Postgres} (h : pg.Healthy) (st : Statement) :
    (pg.record st).Healthy := by
  intro f hf
  exact h f (List.mem_of_mem_tail hf)

theorem Postgres.Healthy.send_fst {pg : Postgres} (h : pg.Healthy) (st : Statement) :
    (pg.send st).1 = none := by
  unfold Postgres.send
  cases hfs : pg.faults with
  | nil => rfl
  | cons f fs =>
    have : f = none := h f (by simp [hfs])
    subst this
    rfl

@[simp] theorem Postgres.lookup_record (pg : Postgres) (st : Statement) (id : String) :
    (pg.record st).lookup id = pg.lookup id := rfl

theorem Postgres.lookup_eq_none_iff (pg : Postgres) (id : String) :
    pg.lookup id = none ↔ ∀ r ∈ pg.rows, r.id ≠ id := by
  simp [Postgres.lookup, List.find?_eq_none]

theorem Postgres.lookup_some {pg : Postgres} {id : String} {r : Row}
    (h : pg.lookup id = some r) : r ∈ pg.rows ∧ r.id = id := by
  unfold Postgres.lookup at h
  exact ⟨List.mem_of_find?_eq_some h, by simpa using List.find?_some h⟩

theorem countP_id_eq_zero_iff (rows : List Row) (id : String) :
    rows.countP (fun r => decide (r.id = id)) = 0 ↔ ∀ r ∈ rows, r.id ≠ id := by
  simp [List.countP_eq_zero]

/-- Under a primary key, the row found by id is the only row with that id. -/
theorem eq_of_find_of_nodup {rows : List Row} {id : String} {r r0 : Row}
    (hk : (rows.map (fun r => r.id)).Nodup)
    (hf : rows.find? (fun r => r.id == id) = some r) (hm : r0 ∈ rows) (hid : r0.id = id) :
    r0 = r := by
  induction rows with
  | nil => cases hm
  | cons x xs ih =>
    rw [List.map_cons, List.nodup_cons] at hk
    by_cases hx : x.id = id
    · have hxr : x = r := by simpa [List.find?_cons, hx] using hf
      rcases List.mem_cons.mp hm with h | h
      · rw [h, hxr]
      · exact absurd (List.mem_map.mpr ⟨r0, h, by rw [hid, hx]⟩) hk.1
    · have hf2 : xs.find? (fun r => r.id == id) = some r := by
        simpa [List.find?_cons, hx] using hf
      rcases List.mem_cons.mp hm with h | h
      · exact absurd (h ▸ hid) hx
      · exact ih hk.2 hf2 h

/-! ## Commands -/

theorem Command.apply_update (price : Option Int) (endDate : Option Time) (id : String)
    (rows : List Row) :
    (Command.update price endDate id).apply rows =
      rows.map (fun r => if r.id = id then r.updated price endDate else r) := by
  have hf : (fun r : Row => if r.id = (Command.update price endDate id).target
        then (Command.update price endDate id).onRow r else some r) =
      fun r => some (if r.id = id then r.updated price endDate else r) := by
    funext r
    by_cases hr : r.id = id <;> simp [Command.target, Command.onRow, Row.updated, hr]
  unfold Command.apply
  rw [hf]
  induction rows with
  | nil => rfl
  | cons x xs ih => simp [List.filterMap_cons, ih]

theorem Command.apply_delete (id : String) (rows : List Row) :
    (Command.delete id).apply rows = rows.filter (fun r => decide (r.id ≠ id)) := by
  have hf : (fun r : Row => if r.id = (Command.delete id).target
        then (Command.delete id).onRow r else some r) =
      fun r => if r.id = id then none else some r := by
    funext r
    by_cases hr : r.id = id <;> simp [Command.target, Command.onRow, hr]
  unfold Command.apply
  rw [hf]
  induction rows with
  | nil => rfl
  | cons x xs ih =>
    by_cases hx : x.id = id
    · simp [List.filterMap_cons, hx, ih, List.filter_cons]
    · simp [List.filterMap_cons, hx, ih, List.filter_cons]

theorem Command.apply_of_absent (c : Command) (rows : List Row)
    (h : ∀ r ∈ rows, r.id ≠ c.target) : c.apply rows = rows := by
  unfold Command.apply
  induction rows with
  | nil => rfl
  | cons x xs ih =>
    have hx : x.id ≠ c.target := h x (List.mem_cons_self x xs)
    have hxs : ∀ r ∈ xs, r.id ≠ c.target := fun r hr => h r (List.mem_cons_of_mem x hr)
    simp [List.filterMap_cons, hx, ih hxs]

theorem Postgres.Exec_snd_of_error {pg : Postgres} {query : String} {args : List Arg}
    {err : Error} (h : (pg.Exec query args).1 = .error err) :
    (pg.Exec query args).2 = pg.record ⟨query, args⟩ := by
  unfold Postgres.Exec at h ⊢
  simp only [Postgres.send] at h ⊢
  generalize pg.faults.head?.join = o at h ⊢
  cases o with
  | some f => rfl
  | none =>
    cases hp : parseExec query args with
    | none => rfl
    | some c => simp [hp] at h

theorem Postgres.Exec_healthy {pg : Postgres} (h : pg.Healthy) {query : String}
    {args : List Arg} {c : Command} (hp : parseExec query args = some c) :
    pg.Exec query args =
      (.ok (pg.rows.countP (fun r => decide (r.id = c.target))),
        (pg.record ⟨query, args⟩).withRows (c.apply pg.rows)) := by
  have hs := h.send_fst ⟨query, args⟩
  unfold Postgres.Exec
  simp only [hs, hp, Postgres.send_snd, Postgres.record_rows]

theorem Postgres.Exec_ok {pg : Postgres} {query : String} {args : List Arg} {n : Nat}
    (h : (pg.Exec query args).1 = .ok n) :
    ∃ c, parseExec query args = some c ∧
      n = pg.rows.countP (fun r => decide (r.id = c.target)) ∧
      (pg.Exec query args).2 = (pg.record ⟨query, args⟩).withRows (c.apply pg.rows) := by
  unfold Postgres.Exec at h ⊢
  simp only [Postgres.send] at h ⊢
  generalize pg.faults.head?.join = o at h ⊢
  cases o with
  | some f => simp at h
  | none =>
    cases hp : parseExec query args with
    | none => simp [hp] at h
    | some c =>
      simp only [hp] at h ⊢
      refine ⟨c, rfl, ?_, rfl⟩
      simpa using h.symm

/-! ## Repository -/

namespace SubscriptionRepository

theorem buildUpdate_empty (id : String) : buildUpdate id ⟨none, none⟩ = none := rfl

theorem buildUpdate_price (id : String) (p : Int) :
    buildUpdate id ⟨some p, none⟩ =
      some ⟨"UPDATE subscriptions SET price = $1 WHERE id = $2", [.int p, .text id]⟩ := by
  simp only [buildUpdate]
  simp
  decide

theorem buildUpdate_endDate (id : String) (e : Time) :
    buildUpdate id ⟨none, some e⟩ =
      some ⟨"UPDATE subscriptions SET end_date = $1 WHERE id = $2", [.date e, .text id]⟩ := by
  simp only [buildUpdate]
  simp
  decide

theorem buildUpdate_both (id : String) (p : Int) (e : Time) :
    buildUpdate id ⟨some p, some e⟩ =
      some ⟨"UPDATE subscriptions SET price = $1, end_date = $2 WHERE id = $3",
        [.int p, .date e, .text id]⟩ := by
  simp only [buildUpdate]
  simp
  decide

theorem parseExec_price (id : String) (p : Int) :
    parseExec "UPDATE subscriptions SET price = $1 WHERE id = $2" [.int p, .text id] =
      some (.update (some p) none id) := by
  rfl

theorem parseExec_endDate (id : String) (e : Time) :
    parseExec "UPDATE subscriptions SET end_date = $1 WHERE id = $2" [.date e, .text id] =
      some (.update none (some e) id) := by
  rfl

theorem parseExec_both (id : String) (p : Int) (e : Time) :
    parseExec "UPDATE subscriptions SET price = $1, end_date = $2 WHERE id = $3"
      [.int p, .date e, .text id] = some (.update (some p) (some e) id) := by
  rfl

theorem parseExec_delete (id : String) :
    parseExec deleteQuery [.text id] = some (.delete id) := by
  rfl

theorem parse_buildUpdate {id : String} {input : UpdateSubscriptionInput} {st : Statement}
    (h : buildUpdate id input = some st) :
    parseExec st.query st.args = some (.update input.Price input.EndDate id) := by
  obtain ⟨price, endDate⟩ := input
  cases price with
  | none =>
    cases endDate with
    | none => rw [buildUpdate_empty] at h; cases h
    | some e =>
      rw [buildUpdate_endDate] at h
      cases h
      exact parseExec_endDate id e
  | some p =>
    cases endDate with
    | none =>
      rw [buildUpdate_price] at h
      cases h
      exact parseExec_price id p
    | some e =>
      rw [buildUpdate_both] at h
      cases h
      exact parseExec_both id p e

theorem buildUpdate_isSome (id : String) (input : UpdateSubscriptionInput)
    (h : input.Price ≠ none ∨ input.EndDate ≠ none) : ∃ st, buildUpdate id input = some st := by
  obtain ⟨price, endDate⟩ := input
  cases price with
  | none =>
    cases endDate with
    | none => simp at h
    | some e => exact ⟨_, buildUpdate_endDate id e⟩
  | some p =>
    cases endDate with
    | none => exact ⟨_, buildUpdate_price id p⟩
    | some e => exact ⟨_, buildUpdate_both id p e⟩

theorem Get_snd (pg : Postgres) (id : String) :
    (Get pg id).2 = pg.record ⟨getQuery, [.text id]⟩ := by
  unfold Get Postgres.selectById
  simp only [Postgres.send]
  generalize pg.faults.head?.join = o
  cases o with
  | some f => simp only []; split <;> rfl
  | none =>
    simp only [Postgres.record_rows]
    cases pg.rows.find? (fun r => r.id == id) with
    | none => simp only []; split <;> rfl
    | some r => rfl

theorem Get_found {pg : Postgres} (h : pg.Healthy) {id : String} {r : Row}
    (hl : pg.lookup id = some r) : (Get pg id).1 = (scan r, none) := by
  have hs := h.send_fst ⟨getQuery, [.text id]⟩
  unfold Postgres.lookup at hl
  unfold Get Postgres.selectById
  simp only [hs, Postgres.send_snd, Postgres.record_rows, hl]

theorem Get_missing {pg : Postgres} (h : pg.Healthy) {id : String}
    (hl : pg.lookup id = none) :
    (Get pg id).1 = (Subscription.zero, some .ErrSubscriptionNotFound) := by
  have hs := h.send_fst ⟨getQuery, [.text id]⟩
  unfold Postgres.lookup at hl
  unfold Get Postgres.selectById
  simp [hs, hl, Error.Is]

theorem Get_ok {pg : Postgres} {id : String} (h : (Get pg id).1.2 = none) :
    ∃ r, pg.lookup id = some r ∧ (Get pg id).1.1 = scan r := by
  unfold Get Postgres.selectById at h ⊢
  unfold Postgres.lookup
  simp only [Postgres.send] at h ⊢
  generalize pg.faults.head?.join = o at h ⊢
  cases o with
  | some f =>
    simp only [] at h
    split at h <;> simp at h
  | none =>
    simp only [Postgres.record_rows] at h ⊢
    cases hf : pg.rows.find? (fun r => r.id == id) with
    | none => simp [hf, Error.Is] at h
    | some r => exact ⟨r, rfl, rfl⟩

theorem Update_healthy {pg : Postgres} (h : pg.Healthy) {id : String}
    {input : UpdateSubscriptionInput} {st : Statement} (hb : buildUpdate id input = some st) :
    Update pg id input =
      (if pg.rows.countP (fun r => decide (r.id = id)) = 0 then some .ErrSubscriptionNotFound
        else none,
        (pg.record st).withRows
          ((Command.update input.Price input.EndDate id).apply pg.rows)) := by
  unfold Update
  simp only [hb, Postgres.Exec_healthy h (parse_buildUpdate hb), Command.target]
  split <;> rfl

theorem Update_ok {pg : Postgres} {id : String} {input : UpdateSubscriptionInput}
    (h : (Update pg id input).1 = none) :
    (Update pg id input).2.rows =
      (Command.update input.Price input.EndDate id).apply pg.rows := by
  unfold Update at h ⊢
  cases hb : buildUpdate id input with
  | none =>
    obtain ⟨price, endDate⟩ := input
    cases price with
    | some p =>
      cases endDate with
      | none => rw [buildUpdate_price] at hb; cases hb
      | some e => rw [buildUpdate_both] at hb; cases hb
    | none =>
      cases endDate with
      | some e => rw [buildUpdate_endDate] at hb; cases hb
      | none =>
        simp only [Command.apply_update, Row.updated]
        simp
  | some st =>
    simp only [hb] at h ⊢
    cases he : (pg.Exec st.query st.args).1 with
    | error err => simp [he] at h
    | ok n =>
      obtain ⟨c, hc, -, hst⟩ := Postgres.Exec_ok he
      rw [parse_buildUpdate hb] at hc
      cases hc
      simp only [he] at h ⊢
      split
      · rename_i h0; simp [h0] at h
      · rw [hst]
        rfl

theorem Delete_healthy {pg : Postgres} (h : pg.Healthy) (id : String) :
    Delete pg id =
      (if pg.rows.countP (fun r => decide (r.id = id)) = 0 then some .ErrSubscriptionNotFound
        else none,
        (pg.record ⟨deleteQuery, [.text id]⟩).withRows ((Command.delete id).apply pg.rows)) := by
  unfold Delete
  simp only [Postgres.Exec_healthy h (parseExec_delete id), Command.target]
  split <;> rfl

end SubscriptionRepository

/-! ## Service: `Update` -/

theorem find_map_of_id_preserved (f : Row → Row) (hf : ∀ r, (f r).id = r.id) (id0 : String)
    (rows : List Row) :
    (rows.map f).find? (fun r => r.id == id0) =
      (rows.find? (fun r => r.id == id0)).map f := by
  induction rows with
  | nil => rfl
  | cons x xs ih =>
    rw [List.map_cons, List.find?_cons, List.find?_cons, hf x]
    cases hx : (x.id == id0) with
    | true => rfl
    | false => exact ih

theorem Postgres.lookup_apply_update (pg : Postgres) (price : Option Int)
    (endDate : Option Time) (id id0 : String) (st : Statement) :
    ((pg.record st).withRows ((Command.update price endDate id).apply pg.rows)).lookup id0 =
      (pg.lookup id0).map (fun r => if r.id = id then r.updated price endDate else r) := by
  unfold Postgres.lookup
  simp only [Command.apply_update, Postgres.withRows_rows]
  apply find_map_of_id_preserved
  intro r
  split <;> rfl

/-- Shape of the service `Update` when an end date is supplied for a stored row and the
gateway works: one `SELECT`, then the date check, then the repository `Update`. -/
theorem service_Update_of_endDate {pg : Postgres}
    (hpg : pg.Healthy) {id : String} {input : UpdateSubscriptionInput} {endDate : Time}
    {r : Row} (hrow : pg.lookup id = some r) (hend : input.EndDate = some endDate) :
    SubscriptionServiceImplementation.Update pg id input =
      if endDate.Before r.start_date = true then
        (some .ErrInvalidPeriod, pg.record ⟨getQuery, [.text id]⟩)
      else SubscriptionRepository.Update (pg.record ⟨getQuery, [.text id]⟩) id input := by
  unfold SubscriptionServiceImplementation.Update
  simp only [hend, SubscriptionRepository.Get_found hpg hrow, SubscriptionRepository.Get_snd,
    SubscriptionRepository.scan]

/-- Whatever the gateway does, a service `Update` whose supplied end date is before the start
date of the stored row ends after the `SELECT` of the pre-check. -/
theorem service_Update_stops_after_select (pg : Postgres) {id : String}
    {input : UpdateSubscriptionInput} {endDate : Time} {r : Row}
    (hrow : pg.lookup id = some r) (hend : input.EndDate = some endDate)
    (hlt : endDate.Before r.start_date = true) :
    (SubscriptionServiceImplementation.Update pg id input).1 ≠ none ∧
    (SubscriptionServiceImplementation.Update pg id input).2 =
      pg.record ⟨getQuery, [.text id]⟩ := by
  unfold SubscriptionServiceImplementation.Update
  simp only [hend, SubscriptionRepository.Get_snd]
  cases hg : (SubscriptionRepository.Get pg id).1.2 with
  | some err => exact ⟨Option.some_ne_none err, rfl⟩
  | none =>
    obtain ⟨r1, hr1, hscan⟩ := SubscriptionRepository.Get_ok hg
    rw [hrow] at hr1
    cases hr1
    simp only [hscan, SubscriptionRepository.scan, hlt, if_true]
    exact ⟨Option.some_ne_none _, trivial⟩

/-- C1: for a stored subscription `r` under `id` and a request whose `EndDate` is supplied
and strictly earlier than `r.start_date`, the service `Update` returns `ErrInvalidPeriod`
when the gateway works, and in every case returns an error, leaves the table as it was, and
the only statement that reached the engine is the `SELECT` of the pre-check: no `UPDATE` is
sent, so neither the end date nor a price supplied in the same request is written. -/
theorem update_endDate_before_start_rejected (pg : Postgres) (id : String)
    (input : UpdateSubscriptionInput) (endDate : Time) (r : Row)
    (hrow : pg.lookup id = some r) (hend : input.EndDate = some endDate)
    (hlt : endDate.Before r.start_date = true) :
    (pg.Healthy →
      (SubscriptionServiceImplementation.Update pg id input).1 = some .ErrInvalidPeriod) ∧
    (SubscriptionServiceImplementation.Update pg id input).1 ≠ none ∧
    (SubscriptionServiceImplementation.Update pg id input).2.rows = pg.rows ∧
    (SubscriptionServiceImplementation.Update pg id input).2.log =
      pg.log ++ [⟨getQuery, [.text id]⟩] := by
  refine ⟨fun hpg => ?_, (service_Update_stops_after_select pg hrow hend hlt).1, ?_, ?_⟩
  · rw [service_Update_of_endDate hpg hrow hend, if_pos hlt]
  · rw [(service_Update_stops_after_select pg hrow hend hlt).2]
    rfl
  · rw [(service_Update_stops_after_select pg hrow hend hlt).2]
    rfl

/-- Witness of C1 on the store with subscriptions A and B: moving the end of A (started in
January 2024) to December 2023 while also changing its price. -/
theorem update_endDate_before_start_rejected_witness :
    storeAB.lookup "1" = some rowA ∧
    (⟨some 5, some ⟨2023, 12, 1⟩⟩ : UpdateSubscriptionInput).EndDate = some ⟨2023, 12, 1⟩ ∧
    Time.Before ⟨2023, 12, 1⟩ rowA.start_date = true ∧ storeAB.Healthy ∧
    (SubscriptionServiceImplementation.Update storeAB "1" ⟨some 5, some ⟨2023, 12, 1⟩⟩).1 =
      some .ErrInvalidPeriod ∧
    (SubscriptionServiceImplementation.Update storeAB "1" ⟨some 5, some ⟨2023, 12, 1⟩⟩).2.rows =
      storeAB.rows ∧
    (SubscriptionServiceImplementation.Update storeAB "1" ⟨some 5, some ⟨2023, 12, 1⟩⟩).2.log =
      storeAB.log ++ [⟨getQuery, [.text "1"]⟩] :=
  ⟨by decide, rfl, by decide, by decide,
    (update_endDate_before_start_rejected storeAB "1" ⟨some 5, some ⟨2023, 12, 1⟩⟩
      ⟨2023, 12, 1⟩ rowA (by decide) rfl (by decide)).1 (by decide),
    (update_endDate_before_start_rejected storeAB "1" ⟨some 5, some ⟨2023, 12, 1⟩⟩
      ⟨2023, 12, 1⟩ rowA (by decide) rfl (by decide)).2.2⟩

/-- Shape of an accepted service `Update` with a supplied end date: the repository `Update`
finds the row and rewrites every row stored under `id`. -/
theorem service_Update_accepted {pg : Postgres}
    (hpg : pg.Healthy) {id : String} {input : UpdateSubscriptionInput} {endDate : Time}
    {r : Row} (hrow : pg.lookup id = some r) (hend : input.EndDate = some endDate)
    (hge : endDate.Before r.start_date = false) :
    ∃ st, SubscriptionRepository.buildUpdate id input = some st ∧
      SubscriptionServiceImplementation.Update pg id input =
        (none, ((pg.record ⟨getQuery, [.text id]⟩).record st).withRows
          ((Command.update input.Price (some endDate) id).apply pg.rows)) := by
  obtain ⟨st, hst⟩ := SubscriptionRepository.buildUpdate_isSome id input
    (Or.inr (by rw [hend]; exact Option.some_ne_none endDate))
  refine ⟨st, hst, ?_⟩
  have hne : ¬ (pg.record ⟨getQuery, [.text id]⟩).rows.countP
      (fun r => decide (r.id = id)) = 0 := by
    rw [countP_id_eq_zero_iff]
    intro hall
    exact hall r (Postgres.lookup_some hrow).1 (Postgres.lookup_some hrow).2
  rw [service_Update_of_endDate hpg hrow hend,
    if_neg (by rw [hge]; exact Bool.false_ne_true),
    SubscriptionRepository.Update_healthy (hpg.record _) hst, if_neg hne, hend]
  rfl

/-- C2: for a stored subscription `r` under `id` and a request with a supplied `EndDate`
(gateway working), the service `Update` has exactly two outcomes.  It returns
`ErrInvalidPeriod` exactly when `EndDate` is before `r.start_date`, and then the table is
unchanged; otherwise it succeeds, the row found under `id` afterwards is `r` with the
supplied end date (and the supplied price, if any), and every row stored under `id` carries
the supplied end date.  The boundary `EndDate = r.start_date` is accepted. -/
theorem update_endDate_two_outcomes (pg : Postgres) (id : String)
    (input : UpdateSubscriptionInput) (endDate : Time) (r : Row)
    (hpg : pg.Healthy) (hrow : pg.lookup id = some r) (hend : input.EndDate = some endDate) :
    ((SubscriptionServiceImplementation.Update pg id input).1 = some .ErrInvalidPeriod ↔
      endDate.Before r.start_date = true) ∧
    (endDate.Before r.start_date = true →
      (SubscriptionServiceImplementation.Update pg id input).2.rows = pg.rows) ∧
    (endDate.Before r.start_date = false →
      (SubscriptionServiceImplementation.Update pg id input).1 = none ∧
      (SubscriptionServiceImplementation.Update pg id input).2.lookup id =
        some { r with
          price := (match input.Price with | some p => p | none => r.price)
          end_date := some endDate } ∧
      ∀ r1 ∈ (SubscriptionServiceImplementation.Update pg id input).2.rows,
        r1.id = id → r1.end_date = some endDate) ∧
    (endDate = r.start_date →
      (SubscriptionServiceImplementation.Update pg id input).1 = none) := by
  have hacc : endDate.Before r.start_date = false →
      (SubscriptionServiceImplementation.Update pg id input).1 = none ∧
      (SubscriptionServiceImplementation.Update pg id input).2.lookup id =
        some { r with
          price := (match input.Price with | some p => p | none => r.price)
          end_date := some endDate } ∧
      ∀ r1 ∈ (SubscriptionServiceImplementation.Update pg id input).2.rows,
        r1.id = id → r1.end_date = some endDate := by
    intro hge
    obtain ⟨st, -, hu⟩ := service_Update_accepted hpg hrow hend hge
    rw [hu]
    refine ⟨rfl, ?_, ?_⟩
    · show (((pg.record ⟨getQuery, [.text id]⟩).record st).withRows
          ((Command.update input.Price (some endDate) id).apply
            (pg.record ⟨getQuery, [.text id]⟩).rows)).lookup id = _
      rw [Postgres.lookup_apply_update, Postgres.lookup_record, hrow, Option.map_some',
        if_pos (Postgres.lookup_some hrow).2]
      rfl
    · intro r1 hr1 hid
      simp only [Postgres.withRows_rows, Command.apply_update, List.mem_map] at hr1
      obtain ⟨r0, -, h0⟩ := hr1
      by_cases h00 : r0.id = id
      · rw [if_pos h00] at h0
        rw [← h0]
        rfl
      · rw [if_neg h00] at h0
        rw [h0] at h00
        exact absurd hid h00
  refine ⟨?_, ?_, hacc, ?_⟩
  · constructor
    · intro h
      cases hb : endDate.Before r.start_date with
      | true => rfl
      | false =>
        rw [(hacc hb).1] at h
        cases h
    · intro hlt
      rw [service_Update_of_endDate hpg hrow hend, if_pos hlt]
  · intro hlt
    rw [service_Update_of_endDate hpg hrow hend, if_pos hlt]
    rfl
  · intro heq
    exact (hacc (by rw [heq]; exact Time.Before_irrefl r.start_date)).1

/-- Witness of C2 on the store with subscriptions A and B: the end of A is set to the month
in which A starts. -/
theorem update_endDate_two_outcomes_witness :
    storeAB.Healthy ∧ storeAB.lookup "1" = some rowA ∧
    (SubscriptionServiceImplementation.Update storeAB "1" ⟨none, some ⟨2024, 1, 1⟩⟩).1 = none ∧
    (SubscriptionServiceImplementation.Update storeAB "1" ⟨none, some ⟨2024, 1, 1⟩⟩).2.lookup "1" =
      some { rowA with end_date := some ⟨2024, 1, 1⟩ } :=
  ⟨by decide, by decide,
    ((update_endDate_two_outcomes storeAB "1" ⟨none, some ⟨2024, 1, 1⟩⟩ ⟨2024, 1, 1⟩ rowA
      (by decide) (by decide) rfl).2.2.1 (by decide)).1,
    ((update_endDate_two_outcomes storeAB "1" ⟨none, some ⟨2024, 1, 1⟩⟩ ⟨2024, 1, 1⟩ rowA
      (by decide) (by decide) rfl).2.2.1 (by decide)).2.1⟩

/-- Amended C3: for an id under which nothing is stored and a request that supplies a price,
an end date or both (gateway working), the service `Update` returns `ErrSubscriptionNotFound`
and the table is unchanged. -/
theorem update_absent_id_not_found (pg : Postgres) (id : String)
    (input : UpdateSubscriptionInput)
    (hpg : pg.Healthy) (habs : pg.lookup id = none)
    (hfield : input.Price ≠ none ∨ input.EndDate ≠ none) :
    (SubscriptionServiceImplementation.Update pg id input).1 = some .ErrSubscriptionNotFound ∧
    (SubscriptionServiceImplementation.Update pg id input).2.rows = pg.rows := by
  cases hend : input.EndDate with
  | some endDate =>
    have hu : SubscriptionServiceImplementation.Update pg id input =
        (some .ErrSubscriptionNotFound, pg.record ⟨getQuery, [.text id]⟩) := by
      unfold SubscriptionServiceImplementation.Update
      simp only [hend, SubscriptionRepository.Get_missing hpg habs,
        SubscriptionRepository.Get_snd]
    rw [hu]
    exact ⟨rfl, rfl⟩
  | none =>
    obtain ⟨st, hst⟩ := SubscriptionRepository.buildUpdate_isSome id input hfield
    have h0 : pg.rows.countP (fun r => decide (r.id = id)) = 0 :=
      (countP_id_eq_zero_iff pg.rows id).mpr ((pg.lookup_eq_none_iff id).mp habs)
    have hu : SubscriptionServiceImplementation.Update pg id input =
        (some .ErrSubscriptionNotFound, (pg.record st).withRows
          ((Command.update input.Price input.EndDate id).apply pg.rows)) := by
      unfold SubscriptionServiceImplementation.Update
      simp only [hend]
      rw [SubscriptionRepository.Update_healthy hpg hst, if_pos h0, hend]
    rw [hu]
    exact ⟨rfl, Command.apply_of_absent _ _ ((pg.lookup_eq_none_iff id).mp habs)⟩

/-- Witness of amended C3: a price change for an id that the store with A and B lacks. -/
theorem update_absent_id_not_found_witness :
    storeAB.Healthy ∧ storeAB.lookup "7" = none ∧
    (SubscriptionServiceImplementation.Update storeAB "7" ⟨some 5, none⟩).1 =
      some .ErrSubscriptionNotFound ∧
    (SubscriptionServiceImplementation.Update storeAB "7" ⟨some 5, none⟩).2.rows =
      storeAB.rows :=
  ⟨by decide, by decide,
    update_absent_id_not_found storeAB "7" ⟨some 5, none⟩ (by decide) (by decide)
      (Or.inl (by decide))⟩

/-- Counterexample to C3 as stated: with neither field supplied, the service `Update` of an
id that is not stored returns success, not `ErrSubscriptionNotFound`. -/
theorem update_absent_id_empty_request_succeeds :
    storeAB.Healthy ∧ storeAB.lookup "7" = none ∧
    (SubscriptionServiceImplementation.Update storeAB "7" ⟨none, none⟩).1 = none ∧
    (SubscriptionServiceImplementation.Update storeAB "7" ⟨none, none⟩).1 ≠
      some .ErrSubscriptionNotFound :=
  ⟨by decide, by decide, rfl, by
    intro h
    have h2 : (SubscriptionServiceImplementation.Update storeAB "7" ⟨none, none⟩).1 = none := rfl
    rw [h2] at h
    cases h⟩

/-- C4: for every id and every store state, the service `Update` with neither `Price` nor
`EndDate` set returns success and hands back the gateway exactly as it was: no statement is
logged (no read, no write) and every row is unchanged. -/
theorem update_empty_request_noop (pg : Postgres) (id : String) :
    SubscriptionServiceImplementation.Update pg id ⟨none, none⟩ = (none, pg) ∧
    (SubscriptionServiceImplementation.Update pg id ⟨none, none⟩).2.log = pg.log ∧
    (SubscriptionServiceImplementation.Update pg id ⟨none, none⟩).2.rows = pg.rows := by
  have h : SubscriptionServiceImplementation.Update pg id ⟨none, none⟩ = (none, pg) := rfl
  rw [h]
  exact ⟨rfl, rfl, rfl⟩

/-! ## Service: `Create` and the date-ordering invariant -/

/-- The row inserted by `Create`. -/
theorem SubscriptionRepository.Create_healthy {pg : Postgres} (hpg : pg.Healthy)
    (sub : Subscription)
    (hfresh : pg.rows.any (fun r => r.id == toString pg.nextId) = false) :
    SubscriptionRepository.Create pg sub =
      ((toString pg.nextId, none),
        { pg.record ⟨insertQuery, [.text sub.ServiceName, .int sub.Price, .text sub.UserID,
            .date sub.StartDate, Arg.ofDate? sub.EndDate]⟩ with
          rows := pg.rows ++ [⟨toString pg.nextId, sub.ServiceName, sub.Price, sub.UserID,
            sub.StartDate, sub.EndDate⟩]
          nextId := pg.nextId + 1 }) := by
  have hs := hpg.send_fst ⟨insertQuery, [.text sub.ServiceName, .int sub.Price,
    .text sub.UserID, .date sub.StartDate, Arg.ofDate? sub.EndDate]⟩
  unfold SubscriptionRepository.Create Postgres.insertReturningId
  simp only [hs, Postgres.send_snd, Postgres.record_rows, Postgres.record_nextId, hfresh]
  rfl

theorem SubscriptionRepository.Create_ok {pg : Postgres} {sub : Subscription}
    (h : (SubscriptionRepository.Create pg sub).1.2 = none) :
    pg.rows.any (fun r => r.id == toString pg.nextId) = false ∧
    (SubscriptionRepository.Create pg sub).2.rows =
      pg.rows ++ [⟨toString pg.nextId, sub.ServiceName, sub.Price, sub.UserID,
        sub.StartDate, sub.EndDate⟩] := by
  unfold SubscriptionRepository.Create Postgres.insertReturningId at h ⊢
  simp only [Postgres.send] at h ⊢
  generalize pg.faults.head?.join = o at h ⊢
  cases o with
  | some f => simp at h
  | none =>
    simp only [Postgres.record_rows, Postgres.record_nextId] at h ⊢
    cases ha : pg.rows.any (fun r => r.id == toString pg.nextId) with
    | true => simp [ha] at h
    | false => simp

theorem service_Create_eq (pg : Postgres) (sub : Subscription) :
    (SubscriptionServiceImplementation.Create pg sub).1.2 =
        (SubscriptionRepository.Create pg sub).1.2 ∧
    (SubscriptionServiceImplementation.Create pg sub).2 =
        (SubscriptionRepository.Create pg sub).2 := by
  unfold SubscriptionServiceImplementation.Create
  cases h : (SubscriptionRepository.Create pg sub).1.2 with
  | none => simp [h]
  | some err => simp [h]

theorem service_Create_healthy {pg : Postgres} (hpg : pg.Healthy)
    (sub : Subscription)
    (hfresh : pg.rows.any (fun r => r.id == toString pg.nextId) = false) :
    (SubscriptionServiceImplementation.Create pg sub).1.2 = none ∧
    (SubscriptionServiceImplementation.Create pg sub).2.rows =
      pg.rows ++ [⟨toString pg.nextId, sub.ServiceName, sub.Price, sub.UserID,
        sub.StartDate, sub.EndDate⟩] := by
  rw [(service_Create_eq pg sub).1,
    (service_Create_eq pg sub).2,
    SubscriptionRepository.Create_healthy hpg sub hfresh]
  exact ⟨rfl, rfl⟩

/-- A successful service `Update` rewrites the rows stored under `id` and no other; with a
supplied end date, the row found under `id` passed the date check. -/
theorem service_Update_ok {pg : Postgres} {id : String}
    {input : UpdateSubscriptionInput}
    (h : (SubscriptionServiceImplementation.Update pg id input).1 = none) :
    (SubscriptionServiceImplementation.Update pg id input).2.rows =
        (Command.update input.Price input.EndDate id).apply pg.rows ∧
    ∀ e, input.EndDate = some e →
      ∃ r, pg.lookup id = some r ∧ e.Before r.start_date = false := by
  unfold SubscriptionServiceImplementation.Update at h ⊢
  cases hend : input.EndDate with
  | none =>
    simp only [hend] at h ⊢
    refine ⟨?_, fun e he => by cases he⟩
    have := SubscriptionRepository.Update_ok h
    rw [hend] at this
    exact this
  | some e =>
    simp only [hend] at h ⊢
    cases hg : (SubscriptionRepository.Get pg id).1.2 with
    | some err => simp [hg] at h
    | none =>
      obtain ⟨r, hr, hscan⟩ := SubscriptionRepository.Get_ok hg
      simp only [hg, hscan, SubscriptionRepository.Get_snd, SubscriptionRepository.scan] at h ⊢
      cases hb : e.Before r.start_date with
      | true => simp [hb] at h
      | false =>
        simp only [hb, Bool.false_eq_true, if_false] at h ⊢
        refine ⟨?_, fun e1 he1 => ⟨r, hr, by cases he1; exact hb⟩⟩
        have := SubscriptionRepository.Update_ok h
        rw [hend] at this
        exact this

theorem Row.DatesOrdered.updated_price {r : Row} (h : r.DatesOrdered) (price : Option Int) :
    (r.updated price none).DatesOrdered := by
  unfold Row.DatesOrdered Row.updated at *
  exact h

theorem Row.datesOrdered_updated_endDate (r : Row) (price : Option Int) {e : Time}
    (h : e.Before r.start_date = false) : (r.updated price (some e)).DatesOrdered := by
  unfold Row.DatesOrdered Row.updated
  exact Time.le_of_not_Before h

theorem map_id_apply_update (price : Option Int) (endDate : Option Time) (id : String)
    (rows : List Row) :
    ((Command.update price endDate id).apply rows).map (fun r => r.id) =
      rows.map (fun r => r.id) := by
  rw [Command.apply_update, List.map_map]
  apply List.map_congr_left
  intro r _
  show (if r.id = id then r.updated price endDate else r).id = r.id
  split <;> rfl

/-- C5: on a table with pairwise distinct ids in which every present end date is not before
the start date, every successful service `Create` and every successful service `Update`
leave a table with pairwise distinct ids in which every present end date is not before the
start date.  `Create` receives a subscription without end date (the only caller,
`createSubscription`, passes `EndDate: nil`); the same holds for any subscription whose end
date is not before its start date. -/
theorem datesOrdered_preserved (pg : Postgres) (hk : pg.PrimaryKey) (hinv : pg.DatesOrdered) :
    (∀ sub : Subscription, sub.EndDate = none →
      (SubscriptionServiceImplementation.Create pg sub).1.2 = none →
      (SubscriptionServiceImplementation.Create pg sub).2.DatesOrdered ∧
      (SubscriptionServiceImplementation.Create pg sub).2.PrimaryKey) ∧
    (∀ sub : Subscription,
      (∀ e, sub.EndDate = some e → sub.StartDate ≤ e) →
      (SubscriptionServiceImplementation.Create pg sub).1.2 = none →
      (SubscriptionServiceImplementation.Create pg sub).2.DatesOrdered ∧
      (SubscriptionServiceImplementation.Create pg sub).2.PrimaryKey) ∧
    (∀ (id : String) (input : UpdateSubscriptionInput),
      (SubscriptionServiceImplementation.Update pg id input).1 = none →
      (SubscriptionServiceImplementation.Update pg id input).2.DatesOrdered ∧
      (SubscriptionServiceImplementation.Update pg id input).2.PrimaryKey) := by
  have hcreate : ∀ sub : Subscription,
      (∀ e, sub.EndDate = some e → sub.StartDate ≤ e) →
      (SubscriptionServiceImplementation.Create pg sub).1.2 = none →
      (SubscriptionServiceImplementation.Create pg sub).2.DatesOrdered ∧
      (SubscriptionServiceImplementation.Create pg sub).2.PrimaryKey := by
    intro sub hsub hok
    rw [(service_Create_eq pg sub).1] at hok
    obtain ⟨hfresh, hrows⟩ := SubscriptionRepository.Create_ok hok
    unfold Postgres.DatesOrdered Postgres.PrimaryKey
    rw [(service_Create_eq pg sub).2, hrows]
    constructor
    · intro r hr
      rcases List.mem_append.mp hr with h | h
      · exact hinv r h
      · rw [List.mem_singleton] at h
        subst h
        unfold Row.DatesOrdered
        cases he : sub.EndDate with
        | none => trivial
        | some e => exact hsub e he
    · rw [List.map_append, List.nodup_append]
      refine ⟨hk, List.nodup_singleton _, ?_⟩
      intro a ha hb
      rw [List.map_singleton, List.mem_singleton] at hb
      obtain ⟨r, hr, hra⟩ := List.mem_map.mp ha
      have hany : pg.rows.any (fun r => r.id == toString pg.nextId) = true :=
        List.any_eq_true.mpr ⟨r, hr, by simp [hra, hb]⟩
      rw [hfresh] at hany
      cases hany
  refine ⟨fun sub hnone hok => hcreate sub (fun e he => ?_) hok, hcreate, ?_⟩
  · rw [hnone] at he
    cases he
  · intro id input hok
    obtain ⟨hrows, hchk⟩ := service_Update_ok hok
    unfold Postgres.DatesOrdered Postgres.PrimaryKey
    rw [hrows]
    constructor
    · intro r1 hr1
      rw [Command.apply_update, List.mem_map] at hr1
      obtain ⟨r0, hr0, h0⟩ := hr1
      by_cases hid : r0.id = id
      · rw [if_pos hid] at h0
        subst h0
        cases hend : input.EndDate with
        | none => exact (hinv r0 hr0).updated_price input.Price
        | some e =>
          obtain ⟨r, hr, hb⟩ := hchk e hend
          have : r0 = r := eq_of_find_of_nodup hk hr hr0 hid
          subst this
          exact Row.datesOrdered_updated_endDate r0 input.Price hb
      · rw [if_neg hid] at h0
        subst h0
        exact hinv r0 hr0
    · rw [map_id_apply_update]
      exact hk

/-- Witness of C5 on the store with subscriptions A and B: creating an open-ended
subscription, and moving the end of A to September 2024, both succeed and keep the date
ordering. -/
theorem datesOrdered_preserved_witness :
    storeAB.PrimaryKey ∧ storeAB.DatesOrdered ∧
    (SubscriptionServiceImplementation.Create storeAB subOpen).1.2 = none ∧
    (SubscriptionServiceImplementation.Create storeAB subOpen).2.DatesOrdered ∧
    (SubscriptionServiceImplementation.Update storeAB "1" ⟨some 5, some ⟨2024, 9, 1⟩⟩).1 = none ∧
    (SubscriptionServiceImplementation.Update storeAB "1"
      ⟨some 5, some ⟨2024, 9, 1⟩⟩).2.DatesOrdered :=
  have hc : (SubscriptionServiceImplementation.Create storeAB subOpen).1.2 = none :=
    (@service_Create_healthy storeAB (by decide) subOpen
      (by decide)).1
  have hu : (SubscriptionServiceImplementation.Update storeAB "1"
      ⟨some 5, some ⟨2024, 9, 1⟩⟩).1 = none := by
    obtain ⟨st, -, h⟩ := @service_Update_accepted storeAB
      (by decide) "1" ⟨some 5, some ⟨2024, 9, 1⟩⟩ ⟨2024, 9, 1⟩ rowA (by decide) rfl (by decide)
    rw [h]
  ⟨by decide, by decide, hc,
    ((datesOrdered_preserved storeAB (by decide) (by decide)).1 subOpen rfl hc).1,
    hu,
    ((datesOrdered_preserved storeAB (by decide) (by decide)).2.2 "1"
      ⟨some 5, some ⟨2024, 9, 1⟩⟩ hu).1⟩

/-! ## Service: `GetTotalCost` -/

theorem COALESCE_sqlSum (xs : List Int) : COALESCE (sqlSum xs) 0 = xs.sum := by
  cases xs with
  | nil => rfl
  | cons x xs => simp [sqlSum, COALESCE]

theorem totalCostWhere_iff (userID serviceName : String) (startDate endDate : Time) (r : Row) :
    totalCostWhere userID serviceName startDate endDate r = true ↔
      Included userID serviceName startDate endDate r := by
  unfold totalCostWhere Included
  cases he : r.end_date with
  | none => simp [sqlLe_iff, and_assoc, and_comm]
  | some e =>
    simp only [Bool.and_eq_true, Bool.or_eq_true, beq_iff_eq, sqlLe_iff, sqlGe_iff]
    constructor
    · rintro ⟨⟨⟨h1, h2⟩, h3⟩, h4⟩
      exact ⟨h1, h3, Or.inr ⟨e, rfl, h4⟩, h2⟩
    · rintro ⟨h1, h3, h4, h2⟩
      rcases h4 with h4 | ⟨e1, he1, h4⟩
      · cases h4
      · cases he1
        exact ⟨⟨⟨h1, h2⟩, h3⟩, h4⟩

theorem filter_totalCostWhere (rows : List Row) (userID serviceName : String)
    (startDate endDate : Time) :
    rows.filter (totalCostWhere userID serviceName startDate endDate) =
      rows.filter (fun s => decide (Included userID serviceName startDate endDate s)) := by
  apply List.filter_congr
  intro r _
  by_cases h : Included userID serviceName startDate endDate r
  · rw [(totalCostWhere_iff userID serviceName startDate endDate r).mpr h, decide_eq_true h]
  · have hf : totalCostWhere userID serviceName startDate endDate r = false := by
      cases hb : totalCostWhere userID serviceName startDate endDate r with
      | false => rfl
      | true => exact absurd ((totalCostWhere_iff userID serviceName startDate endDate r).mp hb) h
    rw [hf, decide_eq_false h]

theorem Postgres.selectTotalCost_healthy {pg : Postgres} (hpg : pg.Healthy)
    (userID serviceName : String) (startDate endDate : Time) :
    (pg.selectTotalCost userID serviceName startDate endDate).1 =
      .ok (COALESCE (sqlSum ((pg.rows.filter
        (totalCostWhere userID serviceName startDate endDate)).map (fun r => r.price))) 0) := by
  have hs := hpg.send_fst ⟨totalCostQuery,
    [.text userID, .text serviceName, .date startDate, .date endDate]⟩
  unfold Postgres.selectTotalCost
  simp only [hs, Postgres.send_snd, Postgres.record_rows]

theorem service_GetTotalCost_healthy {pg : Postgres}
    (hpg : pg.Healthy) (userID serviceName : String) (startDate endDate : Time) :
    (SubscriptionServiceImplementation.GetTotalCost pg userID serviceName startDate endDate).1 =
      (COALESCE (sqlSum ((pg.rows.filter
        (totalCostWhere userID serviceName startDate endDate)).map (fun r => r.price))) 0,
        none) := by
  unfold SubscriptionServiceImplementation.GetTotalCost SubscriptionRepository.GetTotalCost
  simp only [Postgres.selectTotalCost_healthy hpg]

/-- C6: for every store state (gateway working), user, service filter and window,
`GetTotalCost` returns, without error, the sum of `price` over exactly the stored rows with
the given user whose start is not after the window end, whose end is absent or not before the
window start, and whose service name equals the filter unless the filter is empty. -/
theorem getTotalCost_sums_included (pg : Postgres) (userId serviceName : String)
    (startDate endDate : Time) (hpg : pg.Healthy) :
    (SubscriptionServiceImplementation.GetTotalCost pg userId serviceName startDate endDate).1 =
      (includedTotal pg.rows userId serviceName startDate endDate, none) := by
  rw [service_GetTotalCost_healthy hpg, COALESCE_sqlSum,
    filter_totalCostWhere]
  rfl

/-- Witness of C6, the two scenarios of the specification: A (2024-01 to 2024-06, 100) and
B (from 2024-05, open, 50) queried with the window 2024-03 to 2024-05 and no service filter
give 150; with a third subscription that starts in 2024-07, the window 2024-01 to 2024-06
still gives 150 and that subscription is not included. -/
theorem getTotalCost_sums_included_witness :
    storeAB.Healthy ∧
    (SubscriptionServiceImplementation.GetTotalCost storeAB "u1" "" ⟨2024, 3, 1⟩ ⟨2024, 5, 1⟩).1 =
      (150, none) ∧
    storeABC.Healthy ∧
    (SubscriptionServiceImplementation.GetTotalCost storeABC "u1" "" ⟨2024, 1, 1⟩ ⟨2024, 6, 1⟩).1 =
      (150, none) ∧
    ¬ Included "u1" "" ⟨2024, 1, 1⟩ ⟨2024, 6, 1⟩ rowC :=
  ⟨by decide,
    (getTotalCost_sums_included storeAB "u1" "" ⟨2024, 3, 1⟩ ⟨2024, 5, 1⟩ (by decide)).trans
      (by decide),
    by decide,
    (getTotalCost_sums_included storeABC "u1" "" ⟨2024, 1, 1⟩ ⟨2024, 6, 1⟩ (by decide)).trans
      (by decide),
    by decide⟩

theorem Postgres.selectTotalCost_snd (pg : Postgres) (userID serviceName : String)
    (startDate endDate : Time) :
    (pg.selectTotalCost userID serviceName startDate endDate).2 =
      pg.record ⟨totalCostQuery,
        [.text userID, .text serviceName, .date startDate, .date endDate]⟩ := by
  unfold Postgres.selectTotalCost
  simp only [Postgres.send]
  generalize pg.faults.head?.join = o
  cases o <;> rfl

/-- The service `GetTotalCost` hands on what the gateway replies to the aggregate query: the
delivered integer as it is, an error under the wrapper of the repository. -/
theorem service_GetTotalCost_of_reply (pg : Postgres) (userID serviceName : String)
    (startDate endDate : Time) :
    (∀ v, (pg.selectTotalCost userID serviceName startDate endDate).1 = .ok v →
      (SubscriptionServiceImplementation.GetTotalCost pg userID serviceName startDate
        endDate).1 = (v, none)) ∧
    (∀ err, (pg.selectTotalCost userID serviceName startDate endDate).1 = .error err →
      (SubscriptionServiceImplementation.GetTotalCost pg userID serviceName startDate
        endDate).1 = (0, some (.wrap "Ошибка при подсчете суммы подписок" err))) ∧
    (SubscriptionServiceImplementation.GetTotalCost pg userID serviceName startDate endDate).2 =
      pg.record ⟨totalCostQuery,
        [.text userID, .text serviceName, .date startDate, .date endDate]⟩ := by
  refine ⟨?_, ?_, ?_⟩
  · intro v h
    unfold SubscriptionServiceImplementation.GetTotalCost SubscriptionRepository.GetTotalCost
    simp only [h]
  · intro err h
    unfold SubscriptionServiceImplementation.GetTotalCost SubscriptionRepository.GetTotalCost
    simp only [h]
  · have hs := pg.selectTotalCost_snd userID serviceName startDate endDate
    unfold SubscriptionServiceImplementation.GetTotalCost SubscriptionRepository.GetTotalCost
    cases h : (pg.selectTotalCost userID serviceName startDate endDate).1 with
    | ok v => simp only [h]; exact hs
    | error err => simp only [h]; exact hs

/-- C7: for every store state (gateway working) and query that no stored row matches,
`GetTotalCost` returns the integer 0 with no error, having sent exactly the aggregate query.
The 0 is the value the engine delivers for that query (a row, not a no-rows error): the
aggregate `SUM` is `NULL` and `COALESCE` turns it into 0.  `GetTotalCost` has no default of
its own: in every state it returns the integer the engine delivers as it is, and returns an
error whenever the engine replies with one (the no-rows error included). -/
theorem getTotalCost_no_match_zero (pg : Postgres) (userId serviceName : String)
    (startDate endDate : Time) (hpg : pg.Healthy)
    (hnone : ∀ r ∈ pg.rows, ¬ Included userId serviceName startDate endDate r) :
    SubscriptionServiceImplementation.GetTotalCost pg userId serviceName startDate endDate =
      ((0, none), pg.record ⟨totalCostQuery,
        [.text userId, .text serviceName, .date startDate, .date endDate]⟩) ∧
    pg.selectTotalCost userId serviceName startDate endDate =
      (.ok 0, pg.record ⟨totalCostQuery,
        [.text userId, .text serviceName, .date startDate, .date endDate]⟩) ∧
    sqlSum ((pg.rows.filter (totalCostWhere userId serviceName startDate endDate)).map
      (fun r => r.price)) = none ∧
    (∀ (pg1 : Postgres) (v : Int),
      (pg1.selectTotalCost userId serviceName startDate endDate).1 = .ok v →
      (SubscriptionServiceImplementation.GetTotalCost pg1 userId serviceName startDate
        endDate).1 = (v, none)) ∧
    (∀ (pg1 : Postgres) (err : Error),
      (pg1.selectTotalCost userId serviceName startDate endDate).1 = .error err →
      (SubscriptionServiceImplementation.GetTotalCost pg1 userId serviceName startDate
        endDate).1.2 ≠ none) := by
  have hempty : pg.rows.filter (totalCostWhere userId serviceName startDate endDate) = [] := by
    rw [List.filter_eq_nil_iff]
    intro r hr hw
    exact hnone r hr ((totalCostWhere_iff userId serviceName startDate endDate r).mp hw)
  have hreply : (pg.selectTotalCost userId serviceName startDate endDate).1 = .ok 0 := by
    rw [Postgres.selectTotalCost_healthy hpg, hempty]
    rfl
  refine ⟨?_, ?_, ?_, ?_, ?_⟩
  · exact Prod.ext
      ((service_GetTotalCost_of_reply pg userId serviceName startDate endDate).1 0 hreply)
      (service_GetTotalCost_of_reply pg userId serviceName startDate endDate).2.2
  · exact Prod.ext hreply (pg.selectTotalCost_snd userId serviceName startDate endDate)
  · rw [hempty]
    rfl
  · intro pg1 v h
    exact (service_GetTotalCost_of_reply pg1 userId serviceName startDate endDate).1 v h
  · intro pg1 err h
    rw [(service_GetTotalCost_of_reply pg1 userId serviceName startDate endDate).2.1 err h]
    exact Option.some_ne_none _

/-- Witness of C7: a user without subscriptions in the store with A and B. -/
theorem getTotalCost_no_match_zero_witness :
    storeAB.Healthy ∧
    (∀ r ∈ storeAB.rows, ¬ Included "u9" "" ⟨2024, 3, 1⟩ ⟨2024, 5, 1⟩ r) ∧
    SubscriptionServiceImplementation.GetTotalCost storeAB "u9" "" ⟨2024, 3, 1⟩ ⟨2024, 5, 1⟩ =
      ((0, none), storeAB.record ⟨totalCostQuery,
        [.text "u9", .text "", .date ⟨2024, 3, 1⟩, .date ⟨2024, 5, 1⟩]⟩) :=
  ⟨by decide, by decide,
    (getTotalCost_no_match_zero storeAB "u9" "" ⟨2024, 3, 1⟩ ⟨2024, 5, 1⟩ (by decide)
      (by decide)).1⟩

/-! ## Service: `Delete`, `Get`, `List` -/

theorem Postgres.Healthy.withRows {pg : Postgres} (h : pg.Healthy) (rows : List Row) :
    (pg.withRows rows).Healthy := h

theorem service_Delete_eq (pg : Postgres) (id : String) :
    SubscriptionServiceImplementation.Delete pg id = SubscriptionRepository.Delete pg id := by
  unfold SubscriptionServiceImplementation.Delete
  rcases h : SubscriptionRepository.Delete pg id with ⟨_ | err, pg1⟩ <;> rfl

theorem service_Delete_healthy {pg : Postgres} (hpg : pg.Healthy)
    (id : String) :
    SubscriptionServiceImplementation.Delete pg id =
      (if pg.lookup id = none then some .ErrSubscriptionNotFound else none,
        (pg.record ⟨deleteQuery, [.text id]⟩).withRows
          (pg.rows.filter (fun r => decide (r.id ≠ id)))) := by
  rw [service_Delete_eq, SubscriptionRepository.Delete_healthy hpg,
    Command.apply_delete]
  by_cases h : pg.lookup id = none
  · rw [if_pos h, if_pos ((countP_id_eq_zero_iff pg.rows id).mpr
      ((pg.lookup_eq_none_iff id).mp h))]
  · rw [if_neg h, if_neg (fun h0 => h ((pg.lookup_eq_none_iff id).mpr
      ((countP_id_eq_zero_iff pg.rows id).mp h0)))]

theorem service_Get_snd (pg : Postgres) (id : String) :
    (SubscriptionServiceImplementation.Get pg id).2 = pg.record ⟨getQuery, [.text id]⟩ := by
  unfold SubscriptionServiceImplementation.Get
  simp only []
  split <;> exact SubscriptionRepository.Get_snd pg id

theorem service_Get_found {pg : Postgres} (hpg : pg.Healthy)
    {id : String} {r : Row} (hl : pg.lookup id = some r) :
    (SubscriptionServiceImplementation.Get pg id).1 = (SubscriptionRepository.scan r, none) := by
  unfold SubscriptionServiceImplementation.Get
  simp only [SubscriptionRepository.Get_found hpg hl]

theorem service_Get_missing {pg : Postgres} (hpg : pg.Healthy)
    {id : String} (hl : pg.lookup id = none) :
    (SubscriptionServiceImplementation.Get pg id).1 =
      (Subscription.zero, some .ErrSubscriptionNotFound) := by
  unfold SubscriptionServiceImplementation.Get
  simp only [SubscriptionRepository.Get_missing hpg hl]

theorem lookup_filter_ne (pg : Postgres) (id : String) :
    (pg.withRows (pg.rows.filter (fun r => decide (r.id ≠ id)))).lookup id = none := by
  rw [Postgres.lookup_eq_none_iff]
  intro r hr
  have := (List.mem_filter.mp hr).2
  simpa using this

/-- C8: with a working gateway, `Delete i` returns `ErrSubscriptionNotFound` exactly when no
row is stored under `i`, and then the table is unchanged.  When a row is stored under `i`,
`Delete i` succeeds and removes every row with that id; the `Get i` that follows returns
`ErrSubscriptionNotFound`, and so does a second `Delete i` (directly after the first, or after
that `Get`). -/
theorem delete_then_not_found (pg : Postgres) (i : String) (hpg : pg.Healthy) :
    (∀ r, pg.lookup i = some r →
      (SubscriptionServiceImplementation.Delete pg i).1 = none ∧
      (SubscriptionServiceImplementation.Delete pg i).2.rows =
        pg.rows.filter (fun r => decide (r.id ≠ i)) ∧
      (SubscriptionServiceImplementation.Delete pg i).2.lookup i = none ∧
      (SubscriptionServiceImplementation.Get
        (SubscriptionServiceImplementation.Delete pg i).2 i).1 =
          (Subscription.zero, some .ErrSubscriptionNotFound) ∧
      (SubscriptionServiceImplementation.Delete
        (SubscriptionServiceImplementation.Delete pg i).2 i).1 =
          some .ErrSubscriptionNotFound ∧
      (SubscriptionServiceImplementation.Delete
        (SubscriptionServiceImplementation.Get
          (SubscriptionServiceImplementation.Delete pg i).2 i).2 i).1 =
          some .ErrSubscriptionNotFound) ∧
    ((SubscriptionServiceImplementation.Delete pg i).1 = some .ErrSubscriptionNotFound ↔
      pg.lookup i = none) ∧
    (pg.lookup i = none → (SubscriptionServiceImplementation.Delete pg i).2.rows = pg.rows) := by
  have hd := service_Delete_healthy hpg i
  have hpg1 : ((pg.record ⟨deleteQuery, [.text i]⟩).withRows
      (pg.rows.filter (fun r => decide (r.id ≠ i)))).Healthy := (hpg.record _).withRows _
  have hl1 : ((pg.record ⟨deleteQuery, [.text i]⟩).withRows
      (pg.rows.filter (fun r => decide (r.id ≠ i)))).lookup i = none :=
    lookup_filter_ne (pg.record ⟨deleteQuery, [.text i]⟩) i
  refine ⟨?_, ?_, ?_⟩
  · intro r hr
    have hne : ¬ pg.lookup i = none := by rw [hr]; exact Option.some_ne_none r
    rw [hd, if_neg hne]
    refine ⟨rfl, rfl, hl1, service_Get_missing hpg1 hl1, ?_, ?_⟩
    · rw [service_Delete_healthy hpg1, if_pos hl1]
    · rw [service_Get_snd,
        service_Delete_healthy (hpg1.record _),
        if_pos (by rw [Postgres.lookup_record]; exact hl1)]
  · rw [hd]
    by_cases h : pg.lookup i = none
    · rw [if_pos h]
      exact ⟨fun _ => h, fun _ => rfl⟩
    · rw [if_neg h]
      exact ⟨fun h0 => Option.noConfusion h0, fun h0 => absurd h0 h⟩
  · intro h
    rw [hd]
    show pg.rows.filter (fun r => decide (r.id ≠ i)) = pg.rows
    rw [List.filter_eq_self]
    intro r hr
    exact decide_eq_true ((pg.lookup_eq_none_iff i).mp h r hr)

/-- Witness of C8 on the store with subscriptions A and B: deleting A, then fetching and
deleting it again. -/
theorem delete_then_not_found_witness :
    storeAB.Healthy ∧ storeAB.lookup "1" = some rowA ∧
    (SubscriptionServiceImplementation.Delete storeAB "1").1 = none ∧
    (SubscriptionServiceImplementation.Delete storeAB "1").2.rows =
      storeAB.rows.filter (fun r => decide (r.id ≠ "1")) ∧
    (SubscriptionServiceImplementation.Delete storeAB "1").2.lookup "1" = none ∧
    (SubscriptionServiceImplementation.Get
      (SubscriptionServiceImplementation.Delete storeAB "1").2 "1").1 =
        (Subscription.zero, some .ErrSubscriptionNotFound) ∧
    (SubscriptionServiceImplementation.Delete
      (SubscriptionServiceImplementation.Delete storeAB "1").2 "1").1 =
        some .ErrSubscriptionNotFound ∧
    (SubscriptionServiceImplementation.Delete
      (SubscriptionServiceImplementation.Get
        (SubscriptionServiceImplementation.Delete storeAB "1").2 "1").2 "1").1 =
        some .ErrSubscriptionNotFound :=
  ⟨by decide, by decide, (delete_then_not_found storeAB "1" (by decide)).1 rowA (by decide)⟩

theorem foldl_append_scan (rows : List Row) (acc : List Subscription) :
    rows.foldl (fun subs r => subs ++ [SubscriptionRepository.scan r]) acc =
      acc ++ rows.map SubscriptionRepository.scan := by
  induction rows generalizing acc with
  | nil => simp
  | cons x xs ih => rw [List.foldl_cons, ih, List.map_cons, List.append_assoc]; rfl

theorem SubscriptionRepository.List_healthy {pg : Postgres} (hpg : pg.Healthy)
    (userID : String) :
    (SubscriptionRepository.List pg userID).1 =
      (some ((pg.rows.filter (fun r => r.user_id == userID)).map SubscriptionRepository.scan),
        none) := by
  have hs := hpg.send_fst ⟨listQuery, [.text userID]⟩
  unfold SubscriptionRepository.List Postgres.selectByUser
  simp only [hs, Postgres.send_snd, Postgres.record_rows, foldl_append_scan, List.nil_append]

theorem SubscriptionRepository.List_ok {pg : Postgres} {userID : String}
    (h : (SubscriptionRepository.List pg userID).1.2 = none) :
    (SubscriptionRepository.List pg userID).1.1 =
      some ((pg.rows.filter (fun r => r.user_id == userID)).map SubscriptionRepository.scan) := by
  unfold SubscriptionRepository.List Postgres.selectByUser at h ⊢
  simp only [Postgres.send] at h ⊢
  generalize pg.faults.head?.join = o at h ⊢
  cases o with
  | some f =>
    cases hd : f.duringRows <;> simp [hd] at h
  | none =>
    simp only [Postgres.record_rows, foldl_append_scan, List.nil_append]

theorem service_List_eq (pg : Postgres) (userID : String) :
    (SubscriptionServiceImplementation.List pg userID).1.2 =
        (SubscriptionRepository.List pg userID).1.2 ∧
    ((SubscriptionRepository.List pg userID).1.2 = none →
      (SubscriptionServiceImplementation.List pg userID).1.1 =
        (SubscriptionRepository.List pg userID).1.1) := by
  unfold SubscriptionServiceImplementation.List
  cases h : (SubscriptionRepository.List pg userID).1.2 with
  | none => simp [h]
  | some err => simp [h]

/-- C9: `List userId` on a working gateway returns, without error, a non-nil slice holding
exactly the stored subscriptions whose `user_id` is `userId`, in table order; its length is 0
when the user owns no stored subscription.  Whatever the gateway does, a `List` that returns
no error returns that slice. -/
theorem list_returns_user_rows (pg : Postgres) (userId : String) :
    (pg.Healthy →
      (SubscriptionServiceImplementation.List pg userId).1 =
        (some ((pg.rows.filter (fun r => decide (r.user_id = userId))).map
          SubscriptionRepository.scan), none)) ∧
    (pg.Healthy → (∀ r ∈ pg.rows, r.user_id ≠ userId) →
      (SubscriptionServiceImplementation.List pg userId).1 = (some [], none)) ∧
    ((SubscriptionServiceImplementation.List pg userId).1.2 = none →
      (SubscriptionServiceImplementation.List pg userId).1.1 =
        some ((pg.rows.filter (fun r => decide (r.user_id = userId))).map
          SubscriptionRepository.scan)) := by
  have hbeq : (fun r : Row => r.user_id == userId) = fun r => decide (r.user_id = userId) := by
    funext r
    by_cases h : r.user_id = userId <;> simp [h]
  have hgen : (SubscriptionServiceImplementation.List pg userId).1.2 = none →
      (SubscriptionServiceImplementation.List pg userId).1.1 =
        some ((pg.rows.filter (fun r => decide (r.user_id = userId))).map
          SubscriptionRepository.scan) := by
    intro h
    rw [(service_List_eq pg userId).1] at h
    rw [(service_List_eq pg userId).2 h,
      SubscriptionRepository.List_ok h, hbeq]
  have hhealthy : pg.Healthy →
      (SubscriptionServiceImplementation.List pg userId).1 =
        (some ((pg.rows.filter (fun r => decide (r.user_id = userId))).map
          SubscriptionRepository.scan), none) := by
    intro hpg
    have herr : (SubscriptionServiceImplementation.List pg userId).1.2 = none := by
      rw [(service_List_eq pg userId).1,
        SubscriptionRepository.List_healthy hpg]
    exact Prod.ext (hgen herr) herr
  refine ⟨hhealthy, ?_, hgen⟩
  intro hpg hnone
  rw [hhealthy hpg]
  have : pg.rows.filter (fun r => decide (r.user_id = userId)) = [] := by
    rw [List.filter_eq_nil_iff]
    intro r hr
    simpa using hnone r hr
  rw [this]
  rfl

/-- C10: with a working gateway, `Get id` returns the stored subscription and no error when a
row is stored under `id`; when none is, it returns the zero-valued subscription together with
the sentinel `ErrSubscriptionNotFound` itself (not a wrapped or generic error); and the error
is `ErrSubscriptionNotFound` exactly when no row is stored under `id`. -/
theorem get_found_or_not_found (pg : Postgres) (id : String) (hpg : pg.Healthy) :
    (∀ r, pg.lookup id = some r →
      (SubscriptionServiceImplementation.Get pg id).1 =
        (⟨r.service_name, r.price, r.user_id, r.start_date, r.end_date⟩, none)) ∧
    (pg.lookup id = none →
      (SubscriptionServiceImplementation.Get pg id).1 =
        (Subscription.zero, some .ErrSubscriptionNotFound)) ∧
    ((SubscriptionServiceImplementation.Get pg id).1.2 = some .ErrSubscriptionNotFound ↔
      pg.lookup id = none) ∧
    ((∃ err, (SubscriptionServiceImplementation.Get pg id).1.2 = some err ∧
        err.Is .ErrSubscriptionNotFound = true) ↔ pg.lookup id = none) := by
  refine ⟨fun r hr => service_Get_found hpg hr,
    fun h => service_Get_missing hpg h, ?_, ?_⟩
  · cases hl : pg.lookup id with
    | none =>
      rw [service_Get_missing hpg hl]
      exact ⟨fun _ => rfl, fun _ => rfl⟩
    | some r =>
      rw [service_Get_found hpg hl]
      exact ⟨fun h => Option.noConfusion h, fun h => Option.noConfusion h⟩
  · cases hl : pg.lookup id with
    | none =>
      rw [service_Get_missing hpg hl]
      exact ⟨fun _ => rfl, fun _ => ⟨.ErrSubscriptionNotFound, rfl, rfl⟩⟩
    | some r =>
      rw [service_Get_found hpg hl]
      refine ⟨?_, fun h => Option.noConfusion h⟩
      rintro ⟨err, h, -⟩
      exact Option.noConfusion h

/-- Witness of C10 on the store with subscriptions A and B: fetching A. -/
theorem get_found_or_not_found_witness :
    storeAB.Healthy ∧ storeAB.lookup "1" = some rowA ∧
    (SubscriptionServiceImplementation.Get storeAB "1").1 =
      (⟨"netflix", 100, "u1", ⟨2024, 1, 1⟩, some ⟨2024, 6, 1⟩⟩, none) ∧
    storeAB.lookup "7" = none ∧
    (SubscriptionServiceImplementation.Get storeAB "7").1 =
      (Subscription.zero, some .ErrSubscriptionNotFound) :=
  ⟨by decide, by decide,
    (get_found_or_not_found storeAB "1" (by decide)).1 rowA (by decide),
    by decide,
    (get_found_or_not_found storeAB "7" (by decide)).2.1 (by decide)⟩

/-- Witness of C9 on the store with subscriptions A and B: a user without subscriptions gets
the empty slice, the owner of A and B gets both. -/
theorem list_returns_user_rows_witness :
    storeAB.Healthy ∧ (∀ r ∈ storeAB.rows, r.user_id ≠ "u9") ∧
    (SubscriptionServiceImplementation.List storeAB "u9").1 = (some [], none) ∧
    (SubscriptionServiceImplementation.List storeAB "u1").1 =
      (some [⟨"netflix", 100, "u1", ⟨2024, 1, 1⟩, some ⟨2024, 6, 1⟩⟩,
        ⟨"spotify", 50, "u1", ⟨2024, 5, 1⟩, none⟩], none) :=
  ⟨by decide, by decide,
    (list_returns_user_rows storeAB "u9").2.1 (by decide) (by decide),
    ((list_returns_user_rows storeAB "u1").1 (by decide)).trans (by decide)⟩

/-! ## Storage failures -/

theorem Postgres.send_fst_of_fault {pg : Postgres} {f : Fault} {rest : List (Option Fault)}
    (hf : pg.faults = some f :: rest) (st : Statement) : (pg.send st).1 = some f := by
  unfold Postgres.send
  rw [hf]
  rfl

theorem Error.pgError_Is_noRows (detail : String) :
    (Error.pgError detail).Is .pgxErrNoRows = false := by
  simp [Error.Is]

theorem repo_Create_of_fault {pg : Postgres} {f : Fault} {rest : List (Option Fault)}
    (hf : pg.faults = some f :: rest) (sub : Subscription) :
    (SubscriptionRepository.Create pg sub).1 =
      ("", some (.wrap "Ошибка при создании подписки" (.pgError f.detail))) := by
  have hs := Postgres.send_fst_of_fault hf ⟨insertQuery, [.text sub.ServiceName,
    .int sub.Price, .text sub.UserID, .date sub.StartDate, Arg.ofDate? sub.EndDate]⟩
  unfold SubscriptionRepository.Create Postgres.insertReturningId
  simp only [hs]

theorem repo_Get_of_fault {pg : Postgres} {f : Fault} {rest : List (Option Fault)}
    (hf : pg.faults = some f :: rest) (id : String) :
    (SubscriptionRepository.Get pg id).1 =
      (Subscription.zero, some (.wrap "Ошибка при получении подписки" (.pgError f.detail))) := by
  have hs := Postgres.send_fst_of_fault hf ⟨getQuery, [.text id]⟩
  unfold SubscriptionRepository.Get Postgres.selectById
  simp only [hs, Error.pgError_Is_noRows, Bool.false_eq_true, if_false]

theorem Postgres.Exec_of_fault {pg : Postgres} {f : Fault} {rest : List (Option Fault)}
    (hf : pg.faults = some f :: rest) (query : String) (args : List Arg) :
    (pg.Exec query args).1 = .error (.pgError f.detail) := by
  have hs := Postgres.send_fst_of_fault hf ⟨query, args⟩
  unfold Postgres.Exec
  simp only [hs]

theorem repo_Update_of_fault {pg : Postgres} {f : Fault} {rest : List (Option Fault)}
    (hf : pg.faults = some f :: rest) (id : String) (input : UpdateSubscriptionInput)
    (hfield : input.Price ≠ none ∨ input.EndDate ≠ none) :
    (SubscriptionRepository.Update pg id input).1 =
      some (.wrap "Ошибка при обновлении подписки" (.pgError f.detail)) := by
  obtain ⟨st, hst⟩ := SubscriptionRepository.buildUpdate_isSome id input hfield
  unfold SubscriptionRepository.Update
  simp only [hst, Postgres.Exec_of_fault hf]

theorem repo_Delete_of_fault {pg : Postgres} {f : Fault} {rest : List (Option Fault)}
    (hf : pg.faults = some f :: rest) (id : String) :
    (SubscriptionRepository.Delete pg id).1 =
      some (.wrap "Ошибка при удалении подписки" (.pgError f.detail)) := by
  unfold SubscriptionRepository.Delete
  simp only [Postgres.Exec_of_fault hf]

theorem repo_List_of_fault {pg : Postgres} {f : Fault} {rest : List (Option Fault)}
    (hf : pg.faults = some f :: rest) (userID : String) :
    (SubscriptionRepository.List pg userID).1 =
      (none, some (.wrap
        (if f.duringRows = true then "Ошибка при сканировании списка подписок"
          else "Ошибка при получении списка подписок") (.pgError f.detail))) := by
  have hs := Postgres.send_fst_of_fault hf ⟨listQuery, [.text userID]⟩
  unfold SubscriptionRepository.List Postgres.selectByUser
  simp only [hs]
  cases f.duringRows <;> rfl

theorem repo_GetTotalCost_of_fault {pg : Postgres} {f : Fault} {rest : List (Option Fault)}
    (hf : pg.faults = some f :: rest) (userID serviceName : String) (startDate endDate : Time) :
    (SubscriptionRepository.GetTotalCost pg userID serviceName startDate endDate).1 =
      (0, some (.wrap "Ошибка при подсчете суммы подписок" (.pgError f.detail))) := by
  have hs := Postgres.send_fst_of_fault hf ⟨totalCostQuery,
    [.text userID, .text serviceName, .date startDate, .date endDate]⟩
  unfold SubscriptionRepository.GetTotalCost Postgres.selectTotalCost
  simp only [hs]

theorem service_Create_of_fault {pg : Postgres} {f : Fault} {rest : List (Option Fault)}
    (hf : pg.faults = some f :: rest) (sub : Subscription) :
    (SubscriptionServiceImplementation.Create pg sub).1 =
      ("", some (.wrap "Ошибка при создании подписки" (.pgError f.detail))) := by
  unfold SubscriptionServiceImplementation.Create
  simp only [repo_Create_of_fault hf]

theorem service_Get_of_fault {pg : Postgres} {f : Fault} {rest : List (Option Fault)}
    (hf : pg.faults = some f :: rest) (id : String) :
    (SubscriptionServiceImplementation.Get pg id).1 =
      (Subscription.zero, some (.wrap "Ошибка при получении подписки" (.pgError f.detail))) := by
  unfold SubscriptionServiceImplementation.Get
  simp only [repo_Get_of_fault hf]

theorem service_Update_of_fault {pg : Postgres} {f : Fault} {rest : List (Option Fault)}
    (hf : pg.faults = some f :: rest) (id : String) (input : UpdateSubscriptionInput)
    (hfield : input.Price ≠ none ∨ input.EndDate ≠ none) :
    (SubscriptionServiceImplementation.Update pg id input).1 =
      some (.wrap
        (if input.EndDate = none then "Ошибка при обновлении подписки"
          else "Ошибка при получении подписки") (.pgError f.detail)) := by
  unfold SubscriptionServiceImplementation.Update
  cases hend : input.EndDate with
  | none =>
    simp only [if_true]
    exact repo_Update_of_fault hf id input hfield
  | some e =>
    simp only [repo_Get_of_fault hf]
    rfl

theorem service_Delete_of_fault {pg : Postgres} {f : Fault} {rest : List (Option Fault)}
    (hf : pg.faults = some f :: rest) (id : String) :
    (SubscriptionServiceImplementation.Delete pg id).1 =
      some (.wrap "Ошибка при удалении подписки" (.pgError f.detail)) := by
  rw [service_Delete_eq]
  exact repo_Delete_of_fault hf id

theorem service_List_of_fault {pg : Postgres} {f : Fault} {rest : List (Option Fault)}
    (hf : pg.faults = some f :: rest) (userID : String) :
    (SubscriptionServiceImplementation.List pg userID).1 =
      (none, some (.wrap
        (if f.duringRows = true then "Ошибка при сканировании списка подписок"
          else "Ошибка при получении списка подписок") (.pgError f.detail))) := by
  unfold SubscriptionServiceImplementation.List
  simp only [repo_List_of_fault hf]

theorem service_GetTotalCost_of_fault {pg : Postgres} {f : Fault} {rest : List (Option Fault)}
    (hf : pg.faults = some f :: rest) (userID serviceName : String) (startDate endDate : Time) :
    (SubscriptionServiceImplementation.GetTotalCost pg userID serviceName startDate endDate).1 =
      (0, some (.wrap "Ошибка при подсчете суммы подписок" (.pgError f.detail))) := by
  unfold SubscriptionServiceImplementation.GetTotalCost
  simp only [repo_GetTotalCost_of_fault hf]

/-- What `errors.Is` answers on a wrapper of an engine error. -/
theorem Error.Is_wrap_pgError (msg detail : String) :
    (Error.wrap msg (.pgError detail)).Is .ErrInternal = false ∧
    (Error.wrap msg (.pgError detail)).Is .ErrSubscriptionNotFound = false ∧
    (Error.wrap msg (.pgError detail)).Is .ErrInvalidPeriod = false ∧
    (Error.wrap msg (.pgError detail)).Is (.pgError detail) = true := by
  simp [Error.Is]

/-- Amended C11: when the gateway fails on the statement of a store operation (a failure
other than no-rows / zero-rows), the store and the domain service return the same error: the
`%w` wrapper of the engine error under the message of the operation (for the service
`Update` with a supplied end date the failing statement is the `SELECT` of the pre-check).
Such an error is neither `ErrSubscriptionNotFound` nor `ErrInvalidPeriod`, it is not
`ErrInternal`, and its chain carries the engine error. -/
theorem storage_failure_is_wrapped (pg : Postgres) (f : Fault) (rest : List (Option Fault))
    (hf : pg.faults = some f :: rest) :
    (∀ sub,
      (SubscriptionRepository.Create pg sub).1.2 =
        some (.wrap "Ошибка при создании подписки" (.pgError f.detail)) ∧
      (SubscriptionServiceImplementation.Create pg sub).1.2 =
        some (.wrap "Ошибка при создании подписки" (.pgError f.detail))) ∧
    (∀ id,
      (SubscriptionRepository.Get pg id).1.2 =
        some (.wrap "Ошибка при получении подписки" (.pgError f.detail)) ∧
      (SubscriptionServiceImplementation.Get pg id).1.2 =
        some (.wrap "Ошибка при получении подписки" (.pgError f.detail))) ∧
    (∀ id input, (input.Price ≠ none ∨ input.EndDate ≠ none) →
      (SubscriptionRepository.Update pg id input).1 =
        some (.wrap "Ошибка при обновлении подписки" (.pgError f.detail)) ∧
      (SubscriptionServiceImplementation.Update pg id input).1 =
        some (.wrap
          (if input.EndDate = none then "Ошибка при обновлении подписки"
            else "Ошибка при получении подписки") (.pgError f.detail))) ∧
    (∀ id,
      (SubscriptionRepository.Delete pg id).1 =
        some (.wrap "Ошибка при удалении подписки" (.pgError f.detail)) ∧
      (SubscriptionServiceImplementation.Delete pg id).1 =
        some (.wrap "Ошибка при удалении подписки" (.pgError f.detail))) ∧
    (∀ userID,
      (SubscriptionRepository.List pg userID).1.2 =
        some (.wrap
          (if f.duringRows = true then "Ошибка при сканировании списка подписок"
            else "Ошибка при получении списка подписок") (.pgError f.detail)) ∧
      (SubscriptionServiceImplementation.List pg userID).1.2 =
        some (.wrap
          (if f.duringRows = true then "Ошибка при сканировании списка подписок"
            else "Ошибка при получении списка подписок") (.pgError f.detail))) ∧
    (∀ userID serviceName startDate endDate,
      (SubscriptionRepository.GetTotalCost pg userID serviceName startDate endDate).1.2 =
        some (.wrap "Ошибка при подсчете суммы подписок" (.pgError f.detail)) ∧
      (SubscriptionServiceImplementation.GetTotalCost pg userID serviceName startDate
          endDate).1.2 =
        some (.wrap "Ошибка при подсчете суммы подписок" (.pgError f.detail))) ∧
    (∀ msg : String,
      (Error.wrap msg (.pgError f.detail)).Is .ErrInternal = false ∧
      (Error.wrap msg (.pgError f.detail)).Is .ErrSubscriptionNotFound = false ∧
      (Error.wrap msg (.pgError f.detail)).Is .ErrInvalidPeriod = false ∧
      (Error.wrap msg (.pgError f.detail)).Is (.pgError f.detail) = true) := by
  refine ⟨fun sub => ⟨?_, ?_⟩, fun id => ⟨?_, ?_⟩, fun id input hfield => ⟨?_, ?_⟩,
    fun id => ⟨?_, ?_⟩, fun userID => ⟨?_, ?_⟩,
    fun userID serviceName startDate endDate => ⟨?_, ?_⟩,
    fun msg => Error.Is_wrap_pgError msg f.detail⟩
  · rw [repo_Create_of_fault hf]
  · rw [service_Create_of_fault hf]
  · rw [repo_Get_of_fault hf]
  · rw [service_Get_of_fault hf]
  · exact repo_Update_of_fault hf id input hfield
  · exact service_Update_of_fault hf id input hfield
  · exact repo_Delete_of_fault hf id
  · exact service_Delete_of_fault hf id
  · rw [repo_List_of_fault hf]
  · rw [service_List_of_fault hf]
  · rw [repo_GetTotalCost_of_fault hf]
  · rw [service_GetTotalCost_of_fault hf]

/-- Witness of amended C11: the store with A and B behind a gateway that refuses the
connection; `Create` and `Delete` return the wrapped engine error. -/
theorem storage_failure_is_wrapped_witness :
    storeDown.faults = some ⟨"connection refused", false⟩ :: [] ∧
    (SubscriptionServiceImplementation.Create storeDown subOpen).1.2 =
      some (.wrap "Ошибка при создании подписки" (.pgError "connection refused")) ∧
    (SubscriptionServiceImplementation.Delete storeDown "1").1 =
      some (.wrap "Ошибка при удалении подписки" (.pgError "connection refused")) :=
  ⟨rfl,
    ((storage_failure_is_wrapped storeDown ⟨"connection refused", false⟩ [] rfl).1 subOpen).2,
    ((storage_failure_is_wrapped storeDown ⟨"connection refused", false⟩ [] rfl).2.2.2.1
      "1").2⟩

/-- Counterexample to C11 as stated: behind a gateway that refuses the connection, the error
returned by the service `Create` is not `ErrInternal` and carries the engine error in its
chain. -/
theorem create_failure_not_internal :
    ∃ err, (SubscriptionServiceImplementation.Create storeDown subOpen).1.2 = some err ∧
      err.Is .ErrInternal = false ∧ err.Is (.pgError "connection refused") = true :=
  ⟨.wrap "Ошибка при создании подписки" (.pgError "connection refused"),
    by rw [@service_Create_of_fault storeDown ⟨"connection refused", false⟩ [] rfl subOpen],
    (Error.Is_wrap_pgError _ _).1, (Error.Is_wrap_pgError _ _).2.2.2⟩

/-! ## Month granularity of the date check -/

theorem parseDate_day {dateStr : String} {t : Time} (h : parseDate dateStr = some t) :
    t.day = 1 := by
  unfold parseDate at h
  split at h
  · split at h
    · simp only [] at h
      split at h
      · cases h
      · cases h
        rfl
    · cases h
  · cases h

/-- For two dates with the same day of the month, `Before` compares year and month only. -/
theorem Time.Before_of_day_eq {a b : Time} (hday : a.day = b.day) :
    a.Before b = true ↔ (a.year < b.year ∨ (a.year = b.year ∧ a.month < b.month)) := by
  obtain ⟨ay, am, ad⟩ := a
  obtain ⟨y, m, d⟩ := b
  simp only at hday
  subst hday
  simp [Time.Before]

/-- What `Before` compares: year and month first, the day of the month only between two
dates of the same month and year. -/
theorem Time.Before_iff (a b : Time) :
    a.Before b = true ↔
      ((a.year < b.year ∨ (a.year = b.year ∧ a.month < b.month)) ∨
        (a.year = b.year ∧ a.month = b.month ∧ a.day < b.day)) := by
  obtain ⟨ay, am, ad⟩ := a
  obtain ⟨y, m, d⟩ := b
  simp only [Time.Before, Bool.or_eq_true, Bool.and_eq_true, decide_eq_true_eq]
  constructor <;> intro h <;> omega

/-- Result of the service `Update` for a stored row and a supplied end date, gateway
working: `ErrInvalidPeriod` when the end date is before the start date, success otherwise. -/
theorem service_Update_result_of_endDate {pg : Postgres} (hpg : pg.Healthy) {id : String}
    {input : UpdateSubscriptionInput} {endDate : Time} {r : Row}
    (hrow : pg.lookup id = some r) (hend : input.EndDate = some endDate) :
    (SubscriptionServiceImplementation.Update pg id input).1 =
      if endDate.Before r.start_date = true then some .ErrInvalidPeriod else none := by
  cases hb : endDate.Before r.start_date with
  | true =>
    rw [service_Update_of_endDate hpg hrow hend, if_pos hb]
    rfl
  | false =>
    obtain ⟨st, -, hu⟩ := service_Update_accepted hpg hrow hend hb
    rw [hu]
    rfl

theorem service_Update_invalid_iff {pg : Postgres} (hpg : pg.Healthy) {id : String}
    {input : UpdateSubscriptionInput} {endDate : Time} {r : Row}
    (hrow : pg.lookup id = some r) (hend : input.EndDate = some endDate) :
    (SubscriptionServiceImplementation.Update pg id input).1 = some .ErrInvalidPeriod ↔
      ((endDate.year < r.start_date.year ∨
          (endDate.year = r.start_date.year ∧ endDate.month < r.start_date.month)) ∨
        (endDate.year = r.start_date.year ∧ endDate.month = r.start_date.month ∧
          endDate.day < r.start_date.day)) := by
  rw [service_Update_result_of_endDate hpg hrow hend, ← Time.Before_iff]
  cases endDate.Before r.start_date with
  | true => exact ⟨fun _ => rfl, fun _ => rfl⟩
  | false => exact ⟨fun h => Option.noConfusion h, fun h => Bool.noConfusion h⟩

/-- Amended C12: for a stored subscription and a supplied `EndDate` (dates at day
precision, gateway working) the date check of the service `Update` depends on year and
month, and on the day of the month only between two dates of the same month and year:
`ErrInvalidPeriod` is returned exactly when the year and month of `EndDate` precede those of
the start date, or both lie in the same month and year and the day of `EndDate` is earlier
than the day of the start date.  Hence an `EndDate` in the month and year of the start date
is rejected exactly when its day is the earlier one, and is accepted otherwise; the outcome
is unchanged when either date is replaced by another date of the same month and year, as
long as the two dates lie in different months or the replacement keeps the order of the
days; and for dates produced by `parseDate`, whose day is always 1, the outcome depends on
year and month only. -/
theorem update_check_by_month (pg : Postgres) (id : String)
    (input : UpdateSubscriptionInput) (endDate : Time) (r : Row)
    (hpg : pg.Healthy) (hrow : pg.lookup id = some r) (hend : input.EndDate = some endDate) :
    ((SubscriptionServiceImplementation.Update pg id input).1 = some .ErrInvalidPeriod ↔
      ((endDate.year < r.start_date.year ∨
          (endDate.year = r.start_date.year ∧ endDate.month < r.start_date.month)) ∨
        (endDate.year = r.start_date.year ∧ endDate.month = r.start_date.month ∧
          endDate.day < r.start_date.day))) ∧
    (endDate.year = r.start_date.year → endDate.month = r.start_date.month →
      ((SubscriptionServiceImplementation.Update pg id input).1 = some .ErrInvalidPeriod ↔
        endDate.day < r.start_date.day)) ∧
    (endDate.year = r.start_date.year → endDate.month = r.start_date.month →
      r.start_date.day ≤ endDate.day →
      (SubscriptionServiceImplementation.Update pg id input).1 = none) ∧
    (∀ (pg1 : Postgres) (id1 : String) (input1 : UpdateSubscriptionInput) (endDate1 : Time)
        (r1 : Row),
      pg1.Healthy → pg1.lookup id1 = some r1 → input1.EndDate = some endDate1 →
      endDate1.year = endDate.year → endDate1.month = endDate.month →
      r1.start_date.year = r.start_date.year → r1.start_date.month = r.start_date.month →
      (¬ (endDate.year = r.start_date.year ∧ endDate.month = r.start_date.month) ∨
        (endDate1.day < r1.start_date.day ↔ endDate.day < r.start_date.day)) →
      ((SubscriptionServiceImplementation.Update pg1 id1 input1).1 = some .ErrInvalidPeriod ↔
        (SubscriptionServiceImplementation.Update pg id input).1 = some .ErrInvalidPeriod)) ∧
    (∀ dateStr1 dateStr2 : String,
      parseDate dateStr1 = some endDate → parseDate dateStr2 = some r.start_date →
      ((SubscriptionServiceImplementation.Update pg id input).1 = some .ErrInvalidPeriod ↔
        (endDate.year < r.start_date.year ∨
          (endDate.year = r.start_date.year ∧ endDate.month < r.start_date.month)))) ∧
    (∀ (dateStr : String) (t : Time), parseDate dateStr = some t → t.day = 1) := by
  have hiff := service_Update_invalid_iff hpg hrow hend
  refine ⟨hiff, ?_, ?_, ?_, ?_, fun dateStr t h => parseDate_day h⟩
  · intro hy hm
    rw [hiff]
    constructor <;> intro h <;> omega
  · intro hy hm hd
    rw [service_Update_result_of_endDate hpg hrow hend]
    have hb : endDate.Before r.start_date = false := by
      cases hb : endDate.Before r.start_date with
      | false => rfl
      | true =>
        have := (Time.Before_iff endDate r.start_date).mp hb
        omega
    rw [hb]
    rfl
  · intro pg1 id1 input1 endDate1 r1 hpg1 hrow1 hend1 hy1 hm1 hsy hsm hord
    rw [hiff, service_Update_invalid_iff hpg1 hrow1 hend1]
    constructor <;> intro h <;> omega
  · intro dateStr1 dateStr2 h1 h2
    have hd1 := parseDate_day h1
    have hd2 := parseDate_day h2
    rw [hiff]
    constructor <;> intro h <;> omega

/-- Witness of amended C12 on the store whose subscription starts on 15 January 2024: an
`EndDate` of 20 January 2024, the same month and year, is accepted. -/
theorem update_check_by_month_witness :
    storeMid.Healthy ∧ storeMid.lookup "4" = some rowMid ∧
    (⟨2024, 1, 20⟩ : Time).year = rowMid.start_date.year ∧
    (⟨2024, 1, 20⟩ : Time).month = rowMid.start_date.month ∧
    rowMid.start_date.day ≤ (⟨2024, 1, 20⟩ : Time).day ∧
    (SubscriptionServiceImplementation.Update storeMid "4" ⟨none, some ⟨2024, 1, 20⟩⟩).1 =
      none :=
  ⟨by decide, by decide, rfl, rfl, by decide,
    (update_check_by_month storeMid "4" ⟨none, some ⟨2024, 1, 20⟩⟩ ⟨2024, 1, 20⟩ rowMid
      (by decide) (by decide) rfl).2.2.1 rfl rfl (by decide)⟩

/-- Counterexample to C12 as stated: the stored subscription starts on 15 January 2024; an
`EndDate` of 1 January 2024, in the same month and year, is rejected with
`ErrInvalidPeriod`, while 20 January 2024, again the same month and year, is accepted. -/
theorem update_same_month_rejected :
    storeMid.Healthy ∧ storeMid.lookup "4" = some rowMid ∧
    (⟨2024, 1, 1⟩ : Time).year = rowMid.start_date.year ∧
    (⟨2024, 1, 1⟩ : Time).month = rowMid.start_date.month ∧
    (SubscriptionServiceImplementation.Update storeMid "4" ⟨none, some ⟨2024, 1, 1⟩⟩).1 =
      some .ErrInvalidPeriod ∧
    (SubscriptionServiceImplementation.Update storeMid "4" ⟨none, some ⟨2024, 1, 20⟩⟩).1 =
      none := by
  refine ⟨by decide, by decide, rfl, rfl, ?_, ?_⟩
  · rw [@service_Update_of_endDate storeMid (by decide) "4" ⟨none, some ⟨2024, 1, 1⟩⟩
      ⟨2024, 1, 1⟩ rowMid (by decide) rfl, if_pos (by decide)]
  · obtain ⟨st, -, hu⟩ := @service_Update_accepted storeMid (by decide) "4"
      ⟨none, some ⟨2024, 1, 20⟩⟩ ⟨2024, 1, 20⟩ rowMid (by decide) rfl (by decide)
    rw [hu]

/-! ## Frame of a successful `Update` -/

/-- C13: after a successful service `Update id req` the table is the old table in which
every row stored under `id` has its price replaced by `req.Price` when present and its end
date replaced by `req.EndDate` when present, nothing else being touched.  For the row found
under `id`: `service_name`, `user_id` and `start_date` are unchanged, `price` is unchanged
when `req.Price` is absent and equals it when present, `end_date` is unchanged when
`req.EndDate` is absent; every row with a different id is unchanged. -/
theorem update_frame (pg : Postgres) (id : String) (input : UpdateSubscriptionInput)
    (hok : (SubscriptionServiceImplementation.Update pg id input).1 = none) :
    (SubscriptionServiceImplementation.Update pg id input).2.rows =
      pg.rows.map (fun r => if r.id = id then
        { r with
          price := (match input.Price with | some p => p | none => r.price)
          end_date := (match input.EndDate with | some e => some e | none => r.end_date) }
        else r) ∧
    (∀ r, pg.lookup id = some r →
      ∃ r1, (SubscriptionServiceImplementation.Update pg id input).2.lookup id = some r1 ∧
        r1.id = r.id ∧ r1.service_name = r.service_name ∧ r1.user_id = r.user_id ∧
        r1.start_date = r.start_date ∧
        (input.Price = none → r1.price = r.price) ∧
        (∀ p, input.Price = some p → r1.price = p) ∧
        (input.EndDate = none → r1.end_date = r.end_date)) ∧
    (∀ id1, id1 ≠ id →
      (SubscriptionServiceImplementation.Update pg id input).2.lookup id1 = pg.lookup id1) := by
  have hrows : (SubscriptionServiceImplementation.Update pg id input).2.rows =
      pg.rows.map (fun r => if r.id = id then r.updated input.Price input.EndDate else r) := by
    rw [(service_Update_ok hok).1, Command.apply_update]
  have hid : ∀ r : Row, (if r.id = id then r.updated input.Price input.EndDate else r).id
      = r.id := by
    intro r
    split <;> rfl
  have hlookup : ∀ id0, (SubscriptionServiceImplementation.Update pg id input).2.lookup id0 =
      (pg.lookup id0).map
        (fun r => if r.id = id then r.updated input.Price input.EndDate else r) := by
    intro id0
    unfold Postgres.lookup
    rw [hrows]
    exact find_map_of_id_preserved _ hid id0 pg.rows
  refine ⟨hrows, ?_, ?_⟩
  · intro r hr
    refine ⟨r.updated input.Price input.EndDate, ?_, rfl, rfl, rfl, rfl, ?_, ?_, ?_⟩
    · rw [hlookup, hr, Option.map_some', if_pos (Postgres.lookup_some hr).2]
    · intro hp
      unfold Row.updated
      rw [hp]
    · intro p hp
      unfold Row.updated
      rw [hp]
    · intro he
      unfold Row.updated
      rw [he]
  · intro id1 hne
    rw [hlookup]
    cases hl : pg.lookup id1 with
    | none => rfl
    | some r =>
      have hrid : r.id ≠ id := by
        rw [(Postgres.lookup_some hl).2]
        exact hne
      rw [Option.map_some', if_neg hrid]

/-- Witness of C13 on the store with A and B: a successful change of the price of A. -/
theorem update_frame_witness :
    (SubscriptionServiceImplementation.Update storeAB "1" ⟨some 5, none⟩).1 = none ∧
    (SubscriptionServiceImplementation.Update storeAB "1" ⟨some 5, none⟩).2.rows =
      [{ rowA with price := 5 }, rowB] :=
  have hu : (SubscriptionServiceImplementation.Update storeAB "1" ⟨some 5, none⟩).1 = none := by
    have h := @SubscriptionRepository.Update_healthy storeAB (by decide) "1" ⟨some 5, none⟩ _
      (SubscriptionRepository.buildUpdate_price "1" 5)
    have h2 : SubscriptionServiceImplementation.Update storeAB "1" ⟨some 5, none⟩ =
        SubscriptionRepository.Update storeAB "1" ⟨some 5, none⟩ := rfl
    rw [h2, h, if_neg (by decide)]
  ⟨hu, (update_frame storeAB "1" ⟨some 5, none⟩ hu).1.trans (by decide)⟩

/-! ## Reads and writes of `Update` -/

theorem Postgres.Exec_log (pg : Postgres) (query : String) (args : List Arg) :
    (pg.Exec query args).2.log = pg.log ++ [⟨query, args⟩] := by
  unfold Postgres.Exec
  simp only [Postgres.send]
  generalize pg.faults.head?.join = o
  cases o with
  | some f => rfl
  | none => cases parseExec query args <;> rfl

theorem repo_Update_log (pg : Postgres) (id : String) (input : UpdateSubscriptionInput) :
    (SubscriptionRepository.Update pg id input).2.log =
      pg.log ++ (SubscriptionRepository.buildUpdate id input).toList := by
  unfold SubscriptionRepository.Update
  cases hb : SubscriptionRepository.buildUpdate id input with
  | none => simp
  | some st =>
    simp only [Option.toList_some]
    have hl := Postgres.Exec_log pg st.query st.args
    cases he : (pg.Exec st.query st.args).1 with
    | error err => exact hl
    | ok n =>
      simp only []
      split <;> exact hl

theorem buildUpdate_query_ne_getQuery {id : String} {input : UpdateSubscriptionInput}
    {st : Statement} (h : SubscriptionRepository.buildUpdate id input = some st) :
    st.query ≠ getQuery := by
  obtain ⟨price, endDate⟩ := input
  cases price with
  | none =>
    cases endDate with
    | none => rw [SubscriptionRepository.buildUpdate_empty] at h; cases h
    | some e =>
      rw [SubscriptionRepository.buildUpdate_endDate] at h
      cases h
      show _ ≠ getQuery
      simp only []
      decide
  | some p =>
    cases endDate with
    | none =>
      rw [SubscriptionRepository.buildUpdate_price] at h
      cases h
      show _ ≠ getQuery
      simp only []
      decide
    | some e =>
      rw [SubscriptionRepository.buildUpdate_both] at h
      cases h
      show _ ≠ getQuery
      simp only []
      decide

/-- C14: when `EndDate` is absent, the service `Update` is exactly the store's `Update` on
the same arguments and sends no `SELECT`: the statements that reach the engine are those of
the store's `Update` (none, or the one `UPDATE`).  When `EndDate` is present, the first
statement sent is the `SELECT` of the store's `Get`, sent once, and the only statement that
may follow it is the `UPDATE`. -/
theorem update_read_before_write (pg : Postgres) (id : String)
    (input : UpdateSubscriptionInput) :
    (input.EndDate = none →
      SubscriptionServiceImplementation.Update pg id input =
        SubscriptionRepository.Update pg id input ∧
      (SubscriptionServiceImplementation.Update pg id input).2.log =
        pg.log ++ (SubscriptionRepository.buildUpdate id input).toList) ∧
    (∀ e, input.EndDate = some e →
      (SubscriptionServiceImplementation.Update pg id input).2.log =
          pg.log ++ [⟨getQuery, [.text id]⟩] ∨
      ∃ st, SubscriptionRepository.buildUpdate id input = some st ∧
        (SubscriptionServiceImplementation.Update pg id input).2.log =
          pg.log ++ [⟨getQuery, [.text id]⟩, st]) ∧
    (∀ st, SubscriptionRepository.buildUpdate id input = some st → st.query ≠ getQuery) := by
  refine ⟨?_, ?_, fun st h => buildUpdate_query_ne_getQuery h⟩
  · intro hend
    have heq : SubscriptionServiceImplementation.Update pg id input =
        SubscriptionRepository.Update pg id input := by
      unfold SubscriptionServiceImplementation.Update
      simp only [hend]
    exact ⟨heq, by rw [heq, repo_Update_log]⟩
  · intro e hend
    unfold SubscriptionServiceImplementation.Update
    simp only [hend, SubscriptionRepository.Get_snd]
    cases hg : (SubscriptionRepository.Get pg id).1.2 with
    | some err => exact Or.inl rfl
    | none =>
      simp only []
      cases hb : e.Before (SubscriptionRepository.Get pg id).1.1.StartDate with
      | true => exact Or.inl rfl
      | false =>
        simp only [Bool.false_eq_true, if_false]
        obtain ⟨st, hst⟩ := SubscriptionRepository.buildUpdate_isSome id input
          (Or.inr (by rw [hend]; exact Option.some_ne_none e))
        refine Or.inr ⟨st, hst, ?_⟩
        have hl := repo_Update_log (pg.record ⟨getQuery, [.text id]⟩) id input
        rw [hst] at hl
        rw [hl]
        simp

/-- Witness of C14 on the store with A and B: a price-only request sends the `UPDATE` alone;
a request with an end date sends the `SELECT` first. -/
theorem update_read_before_write_witness :
    (⟨some 5, none⟩ : UpdateSubscriptionInput).EndDate = none ∧
    SubscriptionServiceImplementation.Update storeAB "1" ⟨some 5, none⟩ =
      SubscriptionRepository.Update storeAB "1" ⟨some 5, none⟩ ∧
    (SubscriptionServiceImplementation.Update storeAB "1" ⟨some 5, none⟩).2.log =
      storeAB.log ++ (SubscriptionRepository.buildUpdate "1" ⟨some 5, none⟩).toList :=
  ⟨rfl, (update_read_before_write storeAB "1" ⟨some 5, none⟩).1 rfl⟩

/-! ## Handlers: status codes -/

theorem updateSubscription_of_parsed (services : SubscriptionService) (pg : Postgres)
    {id : String} (hid : id ≠ "") (input : updateSubInput) (endDate : Option Time)
    (hparsed : (input.EndDate = none ∧ endDate = none) ∨
      ∃ dateStr t, input.EndDate = some dateStr ∧ parseDate dateStr = some t ∧
        endDate = some t) :
    updateSubscription services pg id (some input) =
      match (services.Update pg id ⟨input.Price, endDate⟩).1 with
      | some err =>
        if err.Is .ErrSubscriptionNotFound then
          (newErrorResponse StatusNotFound "Подписка не найдена",
            (services.Update pg id ⟨input.Price, endDate⟩).2)
        else if err.Is .ErrInvalidPeriod then
          (newErrorResponse StatusBadRequest
            "Дата окончания не может быть раньше даты начала",
            (services.Update pg id ⟨input.Price, endDate⟩).2)
        else (newErrorResponse StatusInternalServerError "Внутренняя ошибка сервера",
          (services.Update pg id ⟨input.Price, endDate⟩).2)
      | none => (⟨StatusOK, .updated "ok" "Подписка обновлена"⟩,
          (services.Update pg id ⟨input.Price, endDate⟩).2) := by
  unfold updateSubscription
  rw [if_neg hid]
  rcases hparsed with ⟨h1, h2⟩ | ⟨dateStr, t, h1, h2, h3⟩
  · subst h2
    simp only [h1]
  · subst h3
    simp only [h1, h2]

/-- C15: for a non-empty id, the get, update (well-formed body: decoded JSON whose end date,
if any, parses) and delete handlers answer 404 when the service error is
`ErrSubscriptionNotFound`, 400 when it is `ErrInvalidPeriod` (update only), 500 for every
other error, and 200 / 200 / 204 exactly when the service returns no error.  With an empty
id (or an empty `user_id` for list, total cost and create) every handler answers 400 and
hands back the state untouched, whatever the service is: the service is not called. -/
theorem handler_status_mapping (services : SubscriptionService) (pg : Postgres) (id : String)
    (hid : id ≠ "") :
    ((∀ err, (services.Get pg id).1.2 = some err →
        (getSubscription services pg id).1.status =
          if err.Is .ErrSubscriptionNotFound = true then StatusNotFound
          else StatusInternalServerError) ∧
      ((getSubscription services pg id).1.status = StatusOK ↔
        (services.Get pg id).1.2 = none)) ∧
    (∀ (input : updateSubInput) (endDate : Option Time),
      ((input.EndDate = none ∧ endDate = none) ∨
        ∃ dateStr t, input.EndDate = some dateStr ∧ parseDate dateStr = some t ∧
          endDate = some t) →
      (∀ err, (services.Update pg id ⟨input.Price, endDate⟩).1 = some err →
        (updateSubscription services pg id (some input)).1.status =
          if err.Is .ErrSubscriptionNotFound = true then StatusNotFound
          else if err.Is .ErrInvalidPeriod = true then StatusBadRequest
          else StatusInternalServerError) ∧
      ((updateSubscription services pg id (some input)).1.status = StatusOK ↔
        (services.Update pg id ⟨input.Price, endDate⟩).1 = none)) ∧
    ((∀ err, (services.Delete pg id).1 = some err →
        (deleteSubscription services pg id).1.status =
          if err.Is .ErrSubscriptionNotFound = true then StatusNotFound
          else StatusInternalServerError) ∧
      ((deleteSubscription services pg id).1.status = StatusNoContent ↔
        (services.Delete pg id).1 = none)) ∧
    (getSubscription services pg "" =
        (newErrorResponse StatusBadRequest "ID подписки не может быть пустым", pg) ∧
      (∀ body, updateSubscription services pg "" body =
        (newErrorResponse StatusBadRequest "ID подписки не может быть пустым", pg)) ∧
      deleteSubscription services pg "" =
        (newErrorResponse StatusBadRequest "ID подписки не может быть пустым", pg) ∧
      getList services pg "" =
        (newErrorResponse StatusBadRequest "ID пользователя не может быть пустым", pg) ∧
      (∀ serviceName startDateStr endDateStr,
        getTotalCost services pg "" serviceName startDateStr endDateStr =
          (newErrorResponse StatusBadRequest "user_id обязателен", pg)) ∧
      (∀ input : createSubInput, input.UserID = "" →
        createSubscription services pg (some input) =
          (newErrorResponse StatusBadRequest "Неверное тело запроса", pg))) := by
  refine ⟨⟨?_, ?_⟩, ?_, ⟨?_, ?_⟩, rfl, fun body => rfl, rfl, rfl,
    fun serviceName startDateStr endDateStr => rfl, ?_⟩
  · intro err herr
    unfold getSubscription
    rw [if_neg hid]
    simp only [herr]
    split <;> rfl
  · unfold getSubscription
    rw [if_neg hid]
    cases h : (services.Get pg id).1.2 with
    | none => simp [h]
    | some err =>
      simp only [h]
      split <;> simp [newErrorResponse, StatusNotFound, StatusInternalServerError, StatusOK]
  · intro input endDate hparsed
    rw [updateSubscription_of_parsed services pg hid input endDate hparsed]
    constructor
    · intro err herr
      simp only [herr]
      split
      · rfl
      · split <;> rfl
    · cases h : (services.Update pg id ⟨input.Price, endDate⟩).1 with
      | none => simp
      | some err =>
        simp only []
        split
        · simp [newErrorResponse, StatusNotFound, StatusOK]
        · split <;>
            simp [newErrorResponse, StatusBadRequest, StatusInternalServerError, StatusOK]
  · intro err herr
    unfold deleteSubscription
    rw [if_neg hid]
    simp only [herr]
    split <;> rfl
  · unfold deleteSubscription
    rw [if_neg hid]
    cases h : (services.Delete pg id).1 with
    | none => simp [h]
    | some err =>
      simp only [h]
      split <;>
        simp [newErrorResponse, StatusNotFound, StatusInternalServerError, StatusNoContent]
  · intro input hu
    unfold createSubscription bindCreate
    simp [hu]

/-- Witness of C15 with the real service on the store with A and B: fetching an id that is
not stored answers 404. -/
theorem handler_status_mapping_witness :
    ("7" : String) ≠ "" ∧
    (NewSubscriptionService.Get storeAB "7").1.2 = some .ErrSubscriptionNotFound ∧
    (getSubscription NewSubscriptionService storeAB "7").1.status = StatusNotFound :=
  have hg : (NewSubscriptionService.Get storeAB "7").1.2 = some .ErrSubscriptionNotFound := by
    show (SubscriptionServiceImplementation.Get storeAB "7").1.2 = _
    rw [@service_Get_missing storeAB (by decide) "7" (by decide)]
  ⟨by decide, hg,
    ((handler_status_mapping NewSubscriptionService storeAB "7" (by decide)).1.1
      .ErrSubscriptionNotFound hg).trans rfl⟩

/-! ## Prices -/

theorem repo_Create_rows (pg : Postgres) (sub : Subscription) :
    (SubscriptionRepository.Create pg sub).2.rows = pg.rows ∨
    (SubscriptionRepository.Create pg sub).2.rows =
      pg.rows ++ [⟨toString pg.nextId, sub.ServiceName, sub.Price, sub.UserID,
        sub.StartDate, sub.EndDate⟩] := by
  unfold SubscriptionRepository.Create Postgres.insertReturningId
  simp only [Postgres.send]
  generalize pg.faults.head?.join = o
  cases o with
  | some f => exact Or.inl rfl
  | none =>
    simp only [Postgres.record_rows, Postgres.record_nextId]
    cases ha : pg.rows.any (fun r => r.id == toString pg.nextId) with
    | true => exact Or.inl rfl
    | false => exact Or.inr rfl

theorem repo_Update_rows (pg : Postgres) (id : String) (input : UpdateSubscriptionInput) :
    (SubscriptionRepository.Update pg id input).2.rows = pg.rows ∨
    (SubscriptionRepository.Update pg id input).2.rows =
      (Command.update input.Price input.EndDate id).apply pg.rows := by
  unfold SubscriptionRepository.Update
  cases hb : SubscriptionRepository.buildUpdate id input with
  | none => exact Or.inl rfl
  | some st =>
    simp only []
    cases he : (pg.Exec st.query st.args).1 with
    | error err =>
      left
      simp only []
      rw [Postgres.Exec_snd_of_error he]
      rfl
    | ok n =>
      right
      obtain ⟨c, hc, -, hst⟩ := Postgres.Exec_ok he
      rw [SubscriptionRepository.parse_buildUpdate hb] at hc
      cases hc
      simp only []
      split <;> rw [hst] <;> rfl

theorem service_Update_rows (pg : Postgres) (id : String) (input : UpdateSubscriptionInput) :
    (SubscriptionServiceImplementation.Update pg id input).2.rows = pg.rows ∨
    (SubscriptionServiceImplementation.Update pg id input).2.rows =
      (Command.update input.Price input.EndDate id).apply pg.rows := by
  unfold SubscriptionServiceImplementation.Update
  cases hend : input.EndDate with
  | none =>
    have h := repo_Update_rows pg id input
    rw [hend] at h
    exact h
  | some e =>
    simp only [SubscriptionRepository.Get_snd]
    cases hg : (SubscriptionRepository.Get pg id).1.2 with
    | some err => exact Or.inl rfl
    | none =>
      simp only []
      split
      · exact Or.inl rfl
      · have h := repo_Update_rows (pg.record ⟨getQuery, [.text id]⟩) id input
        rw [hend] at h
        exact h

theorem createSubscription_rows (pg : Postgres) (body : createSubInput) :
    (createSubscription NewSubscriptionService pg (some body)).2.rows = pg.rows ∨
    ∃ r : Row, r.price = body.Price ∧
      (createSubscription NewSubscriptionService pg (some body)).2.rows = pg.rows ++ [r] := by
  unfold createSubscription
  cases hbind : bindCreate (some body) with
  | none => exact Or.inl rfl
  | some input =>
    have hinput : input = body := by
      unfold bindCreate at hbind
      simp only [] at hbind
      split at hbind
      · cases hbind
      · exact (Option.some.inj hbind).symm
    subst hinput
    simp only []
    cases hp : parseDate input.StartDate with
    | none => exact Or.inl rfl
    | some startDate =>
      simp only []
      have hst : ∀ sub, (NewSubscriptionService.Create pg sub).2 =
          (SubscriptionRepository.Create pg sub).2 := fun sub => (service_Create_eq pg sub).2
      have hrows := repo_Create_rows pg
        ⟨input.ServiceName, input.Price, input.UserID, startDate, none⟩
      split
      · rw [hst]
        rcases hrows with h | h
        · exact Or.inl h
        · exact Or.inr ⟨_, rfl, h⟩
      · rw [hst]
        rcases hrows with h | h
        · exact Or.inl h
        · exact Or.inr ⟨_, rfl, h⟩

theorem Postgres.PricesNonneg.run {pg : Postgres} (hpg : pg.PricesNonneg) (req : Request)
    (hreq : ∀ p, req.price = some p → 0 ≤ p) : (req.run pg).PricesNonneg := by
  have happend : ∀ (q : Postgres) (r : Row), 0 ≤ r.price → q.rows = pg.rows ++ [r] →
      q.PricesNonneg := by
    intro q r hr hq r1 hr1
    rw [hq] at hr1
    rcases List.mem_append.mp hr1 with h | h
    · exact hpg r1 h
    · rw [List.mem_singleton] at h
      rw [h]
      exact hr
  have hsame : ∀ q : Postgres, q.rows = pg.rows → q.PricesNonneg := by
    intro q hq r1 hr1
    rw [hq] at hr1
    exact hpg r1 hr1
  cases req with
  | post body =>
    rcases createSubscription_rows pg body with h | ⟨r, hr, h⟩
    · exact hsame _ h
    · exact happend _ r (by rw [hr]; exact hreq body.Price rfl) h
  | create sub =>
    show (SubscriptionServiceImplementation.Create pg sub).2.PricesNonneg
    rw [(service_Create_eq pg sub).2]
    rcases repo_Create_rows pg sub with h | h
    · exact hsame _ h
    · exact happend _ _ (hreq sub.Price rfl) h
  | update id input =>
    rcases service_Update_rows pg id input with h | h
    · exact hsame _ h
    · intro r1 hr1
      have hr1b : r1 ∈ (SubscriptionServiceImplementation.Update pg id input).2.rows := hr1
      rw [h, Command.apply_update, List.mem_map] at hr1b
      obtain ⟨r0, hr0, h0⟩ := hr1b
      by_cases hid : r0.id = id
      · rw [if_pos hid] at h0
        subst h0
        cases hp : input.Price with
        | none =>
          show 0 ≤ (r0.updated none input.EndDate).price
          exact hpg r0 hr0
        | some p =>
          show 0 ≤ (r0.updated (some p) input.EndDate).price
          exact hreq p hp
      · rw [if_neg hid] at h0
        subst h0
        exact hpg r0 hr0

theorem createSubscription_created {pg : Postgres} (hpg : pg.Healthy)
    (hfresh : pg.rows.any (fun r => r.id == toString pg.nextId) = false)
    {body : createSubInput} {startDate : Time}
    (hbind : bindCreate (some body) = some body)
    (hdate : parseDate body.StartDate = some startDate) :
    (createSubscription NewSubscriptionService pg (some body)).1.status = StatusCreated ∧
    (createSubscription NewSubscriptionService pg (some body)).2.rows =
      pg.rows ++ [⟨toString pg.nextId, body.ServiceName, body.Price, body.UserID, startDate,
        none⟩] := by
  have hc := service_Create_healthy hpg
    ⟨body.ServiceName, body.Price, body.UserID, startDate, none⟩ hfresh
  have hc1 : (NewSubscriptionService.Create pg
      ⟨body.ServiceName, body.Price, body.UserID, startDate, none⟩).1.2 = none := hc.1
  unfold createSubscription
  simp only [hbind, hdate, hc1]
  exact ⟨trivial, hc.2⟩

/-- Amended C16: starting from a store in which every price is non-negative (in particular
the empty store), after any sequence of create requests (through `createSubscription` or the
service `Create`) and service `Update` requests, successful or not, in which every supplied
price is non-negative, every stored subscription has a non-negative price. -/
theorem prices_nonneg_preserved (pg : Postgres) (reqs : List Request)
    (hpg : pg.PricesNonneg) (hreqs : ∀ req ∈ reqs, ∀ p, req.price = some p → 0 ≤ p) :
    (runRequests pg reqs).PricesNonneg := by
  unfold runRequests
  induction reqs generalizing pg with
  | nil => exact hpg
  | cons req reqs ih =>
    rw [List.foldl_cons]
    apply ih
    · exact hpg.run req (hreqs req (List.mem_cons_self req reqs))
    · intro r hr
      exact hreqs r (List.mem_cons_of_mem req hr)

/-- Witness of amended C16: on the empty store, a create request with price 100 followed by
an update of the price to 0. -/
theorem prices_nonneg_preserved_witness :
    emptyStore.PricesNonneg ∧
    (∀ req ∈ [Request.post ⟨"netflix", 100, "u1", "01-2024"⟩, Request.update "1" ⟨some 0, none⟩],
      ∀ p, req.price = some p → 0 ≤ p) ∧
    (runRequests emptyStore
      [Request.post ⟨"netflix", 100, "u1", "01-2024"⟩,
        Request.update "1" ⟨some 0, none⟩]).PricesNonneg :=
  have hreqs : ∀ req ∈ [Request.post ⟨"netflix", 100, "u1", "01-2024"⟩,
      Request.update "1" ⟨some 0, none⟩], ∀ p, req.price = some p → 0 ≤ p := by
    intro req hreq p hp
    simp only [List.mem_cons, List.mem_singleton, List.not_mem_nil, or_false] at hreq
    rcases hreq with h | h
    · subst h
      cases hp
      decide
    · subst h
      cases hp
      decide
  ⟨by decide, hreqs, prices_nonneg_preserved emptyStore _ (by decide) hreqs⟩

/-- Counterexample to C16 as stated: on the empty store the handler `createSubscription`
over the real service accepts a body with price -5 (status 201) and stores it; likewise a
successful service `Update` writes the supplied price -3. -/
theorem negative_price_is_stored :
    emptyStore.rows = [] ∧
    (createSubscription NewSubscriptionService emptyStore
      (some ⟨"netflix", -5, "u1", "01-2024"⟩)).1.status = StatusCreated ∧
    (createSubscription NewSubscriptionService emptyStore
      (some ⟨"netflix", -5, "u1", "01-2024"⟩)).2.rows =
        [⟨"1", "netflix", -5, "u1", ⟨2024, 1, 1⟩, none⟩] ∧
    ¬ (createSubscription NewSubscriptionService emptyStore
      (some ⟨"netflix", -5, "u1", "01-2024"⟩)).2.PricesNonneg := by
  have h := @createSubscription_created emptyStore (by decide) (by decide)
    ⟨"netflix", -5, "u1", "01-2024"⟩ ⟨2024, 1, 1⟩ (by decide) (by decide)
  have hrows : (createSubscription NewSubscriptionService emptyStore
      (some ⟨"netflix", -5, "u1", "01-2024"⟩)).2.rows =
        [⟨"1", "netflix", -5, "u1", ⟨2024, 1, 1⟩, none⟩] := h.2.trans (by decide)
  refine ⟨rfl, h.1, hrows, ?_⟩
  intro hinv
  have hneg := hinv ⟨"1", "netflix", -5, "u1", ⟨2024, 1, 1⟩, none⟩
    (by rw [hrows]; exact List.mem_singleton_self _)
  revert hneg
  decide

/-! ## The dynamic `UPDATE` statement -/

theorem expectedUpdate_price (id : String) (p : Int) :
    expectedUpdate id ⟨some p, none⟩ =
      ⟨"UPDATE subscriptions SET price = $1 WHERE id = $2", [.int p, .text id]⟩ := by
  simp only [expectedUpdate]
  simp [List.enum, List.enumFrom]
  decide

theorem expectedUpdate_endDate (id : String) (e : Time) :
    expectedUpdate id ⟨none, some e⟩ =
      ⟨"UPDATE subscriptions SET end_date = $1 WHERE id = $2", [.date e, .text id]⟩ := by
  simp only [expectedUpdate]
  simp [List.enum, List.enumFrom]
  decide

theorem expectedUpdate_both (id : String) (p : Int) (e : Time) :
    expectedUpdate id ⟨some p, some e⟩ =
      ⟨"UPDATE subscriptions SET price = $1, end_date = $2 WHERE id = $3",
        [.int p, .date e, .text id]⟩ := by
  simp only [expectedUpdate]
  simp [List.enum, List.enumFrom]
  decide

/-- C17: for every request with at least one field present, the store's `Update` builds
exactly the statement of the description: one assignment per present field and no other
(price before end_date), assignments separated by a comma and no comma before `WHERE`,
placeholders `$1..$n` in order of appearance with the id on the last one, and an argument
list of length `n` holding the value of placeholder `$k` at position `k`.  The three
possible statements are spelled out, and the engine accepts each of them as the update it
stands for. -/
theorem buildUpdate_well_formed (id : String) (input : UpdateSubscriptionInput)
    (hfield : input.Price ≠ none ∨ input.EndDate ≠ none) :
    SubscriptionRepository.buildUpdate id input = some (expectedUpdate id input) ∧
    parseExec (expectedUpdate id input).query (expectedUpdate id input).args =
      some (.update input.Price input.EndDate id) ∧
    (expectedUpdate id input).args.length =
      input.Price.toList.length + input.EndDate.toList.length + 1 ∧
    (expectedUpdate id input).args.getLast? = some (.text id) ∧
    (∀ p, input = ⟨some p, none⟩ →
      SubscriptionRepository.buildUpdate id input =
        some ⟨"UPDATE subscriptions SET price = $1 WHERE id = $2", [.int p, .text id]⟩) ∧
    (∀ e, input = ⟨none, some e⟩ →
      SubscriptionRepository.buildUpdate id input =
        some ⟨"UPDATE subscriptions SET end_date = $1 WHERE id = $2",
          [.date e, .text id]⟩) ∧
    (∀ p e, input = ⟨some p, some e⟩ →
      SubscriptionRepository.buildUpdate id input =
        some ⟨"UPDATE subscriptions SET price = $1, end_date = $2 WHERE id = $3",
          [.int p, .date e, .text id]⟩) := by
  obtain ⟨price, endDate⟩ := input
  cases price with
  | none =>
    cases endDate with
    | none => simp at hfield
    | some e =>
      rw [expectedUpdate_endDate, SubscriptionRepository.buildUpdate_endDate]
      refine ⟨rfl, SubscriptionRepository.parseExec_endDate id e, rfl, rfl, ?_, ?_, ?_⟩
      · intro p h
        cases h
      · intro e1 h
        cases h
        rfl
      · intro p e1 h
        cases h
  | some p =>
    cases endDate with
    | none =>
      rw [expectedUpdate_price, SubscriptionRepository.buildUpdate_price]
      refine ⟨rfl, SubscriptionRepository.parseExec_price id p, rfl, rfl, ?_, ?_, ?_⟩
      · intro p1 h
        cases h
        rfl
      · intro e1 h
        cases h
      · intro p1 e1 h
        cases h
    | some e =>
      rw [expectedUpdate_both, SubscriptionRepository.buildUpdate_both]
      refine ⟨rfl, SubscriptionRepository.parseExec_both id p e, rfl, rfl, ?_, ?_, ?_⟩
      · intro p1 h
        cases h
      · intro e1 h
        cases h
      · intro p1 e1 h
        cases h
        rfl

/-- Witness of C17: the price-only request of the claim. -/
theorem buildUpdate_well_formed_witness :
    ((⟨some 5, none⟩ : UpdateSubscriptionInput).Price ≠ none ∨
      (⟨some 5, none⟩ : UpdateSubscriptionInput).EndDate ≠ none) ∧
    SubscriptionRepository.buildUpdate "1" ⟨some 5, none⟩ =
      some ⟨"UPDATE subscriptions SET price = $1 WHERE id = $2", [.int 5, .text "1"]⟩ :=
  ⟨Or.inl (by decide),
    (buildUpdate_well_formed "1" ⟨some 5, none⟩ (Or.inl (by decide))).2.2.2.2.1 5 rfl⟩

end Crudl
